import Mathlib

/-! Environment-variable feature-flag provider.

A shallow embedding of `src/frontend/featureFlags/envVarProvider.go`.

Go strings are modelled as Lean strings, that is as sequences of Unicode code
points (valid UTF-8 text).  The process environment is an explicit argument.
The pieces of the Go runtime the provider calls (`strings.ToUpper`,
`strings.ReplaceAll`, `os.Getenv`, `strconv.ParseBool`, `strconv.ParseInt`)
are modelled from their library sources; the Unicode case table beyond
Latin-1 and `strconv.ParseFloat` are parameters.
-/

namespace FeatureFlags

/-! ## `unicode` and `strings` -/

/-- The constant `unicode.MaxASCII`. -/
def MaxASCII : Nat := 0x7F

/-- The constant `unicode.MaxLatin1`. -/
def MaxLatin1 : Nat := 0xFF

/-- The constant `utf8.RuneSelf`: code points below it are single bytes. -/
def RuneSelf : Nat := 0x80

/-- The upper-case column of `unicode.CaseRanges` on U+0080..U+00FF:
`{0x00B5, 0x00B5, d{743, 0, 743}}`, `{0x00E0, 0x00F6, d{-32, 0, -32}}`,
`{0x00F8, 0x00FE, d{-32, 0, -32}}`, `{0x00FF, 0x00FF, d{121, 0, 121}}`;
a code point in no range (such as U+00DF) maps to itself. -/
def toUpperLatin1 (r : Char) : Char :=
  if r.toNat = 0xB5 then Char.ofNat (r.toNat + 743)
  else if 0xE0 ≤ r.toNat ∧ r.toNat ≤ 0xF6 then Char.ofNat (r.toNat - 32)
  else if 0xF8 ≤ r.toNat ∧ r.toNat ≤ 0xFE then Char.ofNat (r.toNat - 32)
  else if r.toNat = 0xFF then Char.ofNat (r.toNat + 121)
  else r

/-- The ASCII branch of `unicode.ToUpper` (and the byte loop of the fast path
of `strings.ToUpper`): `if 'a' <= r && r <= 'z' { r -= 'a' - 'A' }`. -/
def toUpperASCII (r : Char) : Char :=
  if 'a'.toNat ≤ r.toNat ∧ r.toNat ≤ 'z'.toNat then
    Char.ofNat (r.toNat - ('a'.toNat - 'A'.toNat))
  else r

/-- The function `unicode.ToUpper`.  ASCII is handled in code; other code
points go through `unicode.CaseRanges`, of which the Latin-1 part is
`toUpperLatin1` and the rest is the parameter `caseTable`. -/
def unicodeToUpper (caseTable : Char → Char) (r : Char) : Char :=
  if r.toNat ≤ MaxASCII then toUpperASCII r
  else if r.toNat ≤ MaxLatin1 then toUpperLatin1 r
  else caseTable r

/-- The Latin-1 fast path of `unicode.IsLower` (`properties[r]&pLmask == pLl`),
that is the lower-case letters up to U+00FF: `a`..`z`, U+00B5, U+00DF..U+00F6
and U+00F8..U+00FF.  No code point beyond U+00FF is in it. -/
def isLowerLatin1 (r : Char) : Bool :=
  decide (('a'.toNat ≤ r.toNat ∧ r.toNat ≤ 'z'.toNat) ∨ r.toNat = 0xB5 ∨
    (0xDF ≤ r.toNat ∧ r.toNat ≤ 0xF6) ∨ (0xF8 ≤ r.toNat ∧ r.toNat ≤ 0xFF))

/-- The function `strings.ToUpper`: a first scan computes `isASCII` and
`hasLower`; an ASCII string is returned as is when it has no lower-case
letter and upper-cased byte by byte otherwise; any other string is
`Map(unicode.ToUpper, s)`. -/
def ToUpper (caseTable : Char → Char) (s : String) : String :=
  let isASCII := s.data.all (fun c => decide (c.toNat < RuneSelf))
  let hasLower := s.data.any (fun c => decide ('a'.toNat ≤ c.toNat ∧ c.toNat ≤ 'z'.toNat))
  if isASCII then
    if !hasLower then s else ⟨s.data.map toUpperASCII⟩
  else ⟨s.data.map (unicodeToUpper caseTable)⟩

/-- The replacement loop of `strings.Replace` for a non-empty `old`: scanning
left to right, each occurrence of `old` found at the current position is
replaced by `new` and skipped (`skip` counts the characters of the occurrence
still to pass), so that matches do not overlap. -/
def replaceLoop (old new : List Char) : List Char → Nat → List Char
  | [], _ => []
  | _ :: t, skip + 1 => replaceLoop old new t skip
  | c :: t, 0 =>
    if old.isPrefixOf (c :: t) then new ++ replaceLoop old new t (old.length - 1)
    else c :: replaceLoop old new t 0

/-- The function `strings.ReplaceAll(s, old, new)`, i.e. `Replace(s, old, new, -1)`:
`s` itself when `old == new`; for an empty `old`, `new` is inserted at the
start and after every code point. -/
def ReplaceAll (s old new : String) : String :=
  if old = new then s
  else if old.data = [] then ⟨new.data ++ s.data.flatMap (fun c => c :: new.data)⟩
  else ⟨replaceLoop old.data new.data s.data 0⟩

/-! ## `envVarProvider.go` -/

/-- The Go type `EnvVarProvider`: the optional prefix of all variable names. -/
structure EnvVarProvider where
  Prefix : String
deriving DecidableEq, Repr

/-- The constructor `NewEnvVarProvider`. -/
def NewEnvVarProvider (pre : String) : EnvVarProvider := { Prefix := pre }

/-- The method `getEnvVarName`: formats the flag key as the name of an
environment variable. -/
def EnvVarProvider.getEnvVarName (caseTable : Char → Char) (e : EnvVarProvider)
    (flag : String) : String :=
  let envName := ToUpper caseTable flag
  let envName := ReplaceAll envName "-" "_"
  let envName := ReplaceAll envName "." "_"
  if e.Prefix ≠ "" then e.Prefix ++ "_" ++ envName else envName

/-! ## `os` and `strconv` -/

/-- The process environment: the value stored under a name, when a variable of
that name is set. -/
abbrev Environ := String → Option String

/-- The function `os.Getenv`, which returns the value `syscall.Getenv` finds:
the empty name has no value (`if len(key) == 0 { return "", false }`); for any
other name the result is the value of the variable, which is empty when the
variable is not present. -/
def Getenv (env : Environ) (key : String) : String :=
  if key = "" then ""
  else
    match env key with
    | some v => v
    | none => ""

/-- The error values `strconv.ErrSyntax` and `strconv.ErrRange`, and the errors
built by `baseError` and `bitSizeError`. -/
inductive ConvErr where
  | ErrSyntax
  | ErrRange
  | invalidBase (base : Nat)
  | invalidBitSize (bitSize : Nat)
deriving DecidableEq, Repr

/-- The Go type `strconv.NumError`. -/
structure NumError where
  Func : String
  Num : String
  Err : ConvErr
deriving DecidableEq, Repr

/-- Builds the error of `strconv.syntaxError`. -/
def syntaxError (fn str : String) : NumError := { Func := fn, Num := str, Err := .ErrSyntax }

/-- Builds the error of `strconv.rangeError`. -/
def rangeError (fn str : String) : NumError := { Func := fn, Num := str, Err := .ErrRange }

/-- Builds the error of `strconv.baseError`. -/
def baseError (fn str : String) (base : Nat) : NumError :=
  { Func := fn, Num := str, Err := .invalidBase base }

/-- Builds the error of `strconv.bitSizeError`. -/
def bitSizeError (fn str : String) (bitSize : Nat) : NumError :=
  { Func := fn, Num := str, Err := .invalidBitSize bitSize }

/-- The function `strconv.ParseBool`: it accepts 1, t, T, TRUE, true, True,
0, f, F, FALSE, false, False; any other value returns an error. -/
def ParseBool (str : String) : Bool × Option NumError :=
  if str = "1" ∨ str = "t" ∨ str = "T" ∨ str = "true" ∨ str = "TRUE" ∨ str = "True" then
    (true, none)
  else if str = "0" ∨ str = "f" ∨ str = "F" ∨ str = "false" ∨ str = "FALSE" ∨ str = "False" then
    (false, none)
  else (false, some (syntaxError "ParseBool" str))

/-- The constant `strconv.IntSize` (64-bit platforms). -/
def IntSize : Nat := 64

/-- The largest `uint64`. -/
def maxUint64 : Nat := 2 ^ 64 - 1

/-- The helper `strconv.lower`: `c | ('x' - 'X')`. -/
def lower (c : Nat) : Nat := c ||| ('x'.toNat - 'X'.toNat)

/-- The digit `switch` of the loop of `strconv.ParseUint` (for a base other
than 0, where `_` is not a separator): the value of a digit or letter, `none`
for the `default:` case.  The loop runs over bytes; every byte of a code point
above U+007F is at least `0x80` and reaches `default:`, as the code point does
here. -/
def digitVal (c : Char) : Option Nat :=
  if '0'.toNat ≤ c.toNat ∧ c.toNat ≤ '9'.toNat then some (c.toNat - '0'.toNat)
  else if 'a'.toNat ≤ lower c.toNat ∧ lower c.toNat ≤ 'z'.toNat then
    some (lower c.toNat - 'a'.toNat + 10)
  else none

/-- The loop of `strconv.ParseUint` over the characters still to read, with
the accumulator `n` (a `uint64`): a bad digit is a syntax error; `n >= cutoff`
means `n*base` overflows, and `n1 < n || n1 > maxVal` means `n+d` overflows,
both range errors returning `maxVal`. -/
def parseUintLoop (base cutoff maxVal : Nat) : List Char → Nat → Nat × Option ConvErr
  | [], n => (n, none)
  | c :: cs, n =>
    match digitVal c with
    | none => (0, some .ErrSyntax)
    | some d =>
      if d ≥ base then (0, some .ErrSyntax)
      else if n ≥ cutoff then (maxVal, some .ErrRange)
      else
        let n' := (n * base) % 2 ^ 64
        let n1 := (n' + d) % 2 ^ 64
        if n1 < n' ∨ n1 > maxVal then (maxVal, some .ErrRange)
        else parseUintLoop base cutoff maxVal cs n1

/-- The function `strconv.ParseUint(s, base, bitSize)` for an explicit base
`2 ≤ base ≤ 36`.  Base 0 (prefix detection and underscores) is not modelled and
is reported like an invalid base; the provider always passes base 10. -/
def ParseUint (s : String) (base bitSize : Nat) : Nat × Option NumError :=
  if s = "" then (0, some (syntaxError "ParseUint" s))
  else if ¬ (2 ≤ base ∧ base ≤ 36) then (0, some (baseError "ParseUint" s base))
  else if bitSize > 64 then (0, some (bitSizeError "ParseUint" s bitSize))
  else
    let bitSize := if bitSize = 0 then IntSize else bitSize
    let cutoff := maxUint64 / base + 1
    let maxVal := (2 ^ bitSize % 2 ^ 64 + 2 ^ 64 - 1) % 2 ^ 64
    match parseUintLoop base cutoff maxVal s.data 0 with
    | (n, none) => (n, none)
    | (n, some err) => (n, some { Func := "ParseUint", Num := s, Err := err })

/-- The conversion `int64(un)` of a `uint64`: two's complement. -/
def toInt64 (un : Nat) : Int :=
  if un % 2 ^ 64 < 2 ^ 63 then (un % 2 ^ 64 : Nat) else (un % 2 ^ 64 : Nat) - 2 ^ 64

/-- Negation of an `int64`, wrapping at `-2^63`. -/
def negInt64 (n : Int) : Int := (-n + 2 ^ 63) % 2 ^ 64 - 2 ^ 63

/-- The function `strconv.ParseInt(s, base, bitSize)`: an optional sign, then
`ParseUint`; a syntax error of `ParseUint` is returned with value 0, and a
magnitude outside the signed range is a range error with the nearest bound. -/
def ParseInt (s : String) (base bitSize : Nat) : Int × Option NumError :=
  if s = "" then (0, some (syntaxError "ParseInt" s))
  else
    let s0 := s
    let neg := decide (s.data.head? = some '-')
    let s : String :=
      if s.data.head? = some '+' then ⟨s.data.tail⟩
      else if s.data.head? = some '-' then ⟨s.data.tail⟩
      else s
    match ParseUint s base bitSize with
    | (un, err) =>
      if err.any (fun x => decide (x.Err ≠ .ErrRange)) then
        (0, err.map (fun x => { x with Func := "ParseInt", Num := s0 }))
      else
        let bitSize := if bitSize = 0 then IntSize else bitSize
        let cutoff := 2 ^ (bitSize - 1) % 2 ^ 64
        if ¬ neg ∧ un ≥ cutoff then
          (toInt64 (cutoff - 1), some (rangeError "ParseInt" s0))
        else if neg ∧ un > cutoff then
          (negInt64 (toInt64 cutoff), some (rangeError "ParseInt" s0))
        else
          let n := toInt64 un
          (if neg then negInt64 n else n, none)

/-! ## `openfeature` result types -/

/-- The Go type `openfeature.ResolutionError`; its zero value means no error. -/
structure ResolutionError where
  code : String := ""
  message : String := ""
deriving DecidableEq, Repr

/-- The Go type `openfeature.Reason`, a string. -/
abbrev Reason := String

/-- The constant `openfeature.TargetingMatchReason`. -/
def TargetingMatchReason : Reason := "TARGETING_MATCH"

/-- The constant `openfeature.DefaultReason`. -/
def DefaultReason : Reason := "DEFAULT"

/-- The Go type `openfeature.ProviderResolutionDetail`.  A field that a
composite literal leaves out has its zero value; `FlagMetadata` is a map from
names to values, here a list of pairs (`nil` is the empty list). -/
structure ProviderResolutionDetail where
  ResolutionError : ResolutionError := {}
  Reason : Reason := ""
  Variant : String := ""
  FlagMetadata : List (String × String) := []
deriving DecidableEq, Repr

/-- The Go type `openfeature.GenericResolutionDetail[T]`, of which
`BoolResolutionDetail`, `StringResolutionDetail`, `FloatResolutionDetail`,
`IntResolutionDetail` and `InterfaceResolutionDetail` are the instances. -/
structure GenericResolutionDetail (T : Type) where
  Value : T
  ProviderResolutionDetail : ProviderResolutionDetail
deriving DecidableEq, Repr

/-- The Go type `openfeature.BoolResolutionDetail`. -/
abbrev BoolResolutionDetail := GenericResolutionDetail Bool

/-- The Go type `openfeature.StringResolutionDetail`. -/
abbrev StringResolutionDetail := GenericResolutionDetail String

/-- The Go type `openfeature.FloatResolutionDetail`, over the type `F` of
`float64` values. -/
abbrev FloatResolutionDetail (F : Type) := GenericResolutionDetail F

/-- The Go type `openfeature.IntResolutionDetail`; an `int64` is an integer. -/
abbrev IntResolutionDetail := GenericResolutionDetail Int

/-- The Go type `openfeature.InterfaceResolutionDetail`, over the type `α` of
the value passed as `interface{}`. -/
abbrev InterfaceResolutionDetail (α : Type) := GenericResolutionDetail α

/-! ## The typed evaluations of `envVarProvider.go`

`Context` stands for `context.Context` and `FlattenedContext` for
`openfeature.FlattenedContext`; `caseTable` and `env` are the Unicode case
table and the process environment the call runs in. -/

section Evaluations

variable {Context FlattenedContext : Type}

/-- The method `BooleanEvaluation`: a boolean flag from the environment, or
the default. -/
def EnvVarProvider.BooleanEvaluation (caseTable : Char → Char) (env : Environ)
    (e : EnvVarProvider) (_ctx : Context) (flag : String) (defaultValue : Bool)
    (_evalCtx : FlattenedContext) : BoolResolutionDetail :=
  let envName := e.getEnvVarName caseTable flag
  let envValue := Getenv env envName
  if envValue ≠ "" then
    match ParseBool envValue with
    | (value, none) =>
      { Value := value
        ProviderResolutionDetail := { Variant := "env-var", Reason := TargetingMatchReason } }
    | (_, some _) =>
      { Value := defaultValue
        ProviderResolutionDetail := { Variant := "default-variant", Reason := DefaultReason } }
  else
    { Value := defaultValue
      ProviderResolutionDetail := { Variant := "default-variant", Reason := DefaultReason } }

/-- The method `StringEvaluation`: a string flag from the environment, or
the default. -/
def EnvVarProvider.StringEvaluation (caseTable : Char → Char) (env : Environ)
    (e : EnvVarProvider) (_ctx : Context) (flag : String) (defaultValue : String)
    (_evalCtx : FlattenedContext) : StringResolutionDetail :=
  let envName := e.getEnvVarName caseTable flag
  let envValue := Getenv env envName
  if envValue ≠ "" then
    { Value := envValue
      ProviderResolutionDetail := { Variant := "env-var", Reason := TargetingMatchReason } }
  else
    { Value := defaultValue
      ProviderResolutionDetail := { Variant := "default-variant", Reason := DefaultReason } }

/-- The method `FloatEvaluation`: a float flag from the environment, or
the default.  `ParseFloat` is `strconv.ParseFloat`, over the type `F` of
`float64` values. -/
def EnvVarProvider.FloatEvaluation {F : Type} (ParseFloat : String → Nat → F × Option NumError)
    (caseTable : Char → Char) (env : Environ)
    (e : EnvVarProvider) (_ctx : Context) (flag : String) (defaultValue : F)
    (_evalCtx : FlattenedContext) : FloatResolutionDetail F :=
  let envName := e.getEnvVarName caseTable flag
  let envValue := Getenv env envName
  if envValue ≠ "" then
    match ParseFloat envValue 64 with
    | (value, none) =>
      { Value := value
        ProviderResolutionDetail := { Variant := "env-var", Reason := TargetingMatchReason } }
    | (_, some _) =>
      { Value := defaultValue
        ProviderResolutionDetail := { Variant := "default-variant", Reason := DefaultReason } }
  else
    { Value := defaultValue
      ProviderResolutionDetail := { Variant := "default-variant", Reason := DefaultReason } }

/-- The method `IntEvaluation`: an int flag from the environment, or
the default. -/
def EnvVarProvider.IntEvaluation (caseTable : Char → Char) (env : Environ)
    (e : EnvVarProvider) (_ctx : Context) (flag : String) (defaultValue : Int)
    (_evalCtx : FlattenedContext) : IntResolutionDetail :=
  let envName := e.getEnvVarName caseTable flag
  let envValue := Getenv env envName
  if envValue ≠ "" then
    match ParseInt envValue 10 64 with
    | (value, none) =>
      { Value := value
        ProviderResolutionDetail := { Variant := "env-var", Reason := TargetingMatchReason } }
    | (_, some _) =>
      { Value := defaultValue
        ProviderResolutionDetail := { Variant := "default-variant", Reason := DefaultReason } }
  else
    { Value := defaultValue
      ProviderResolutionDetail := { Variant := "default-variant", Reason := DefaultReason } }

/-- The method `ObjectEvaluation`: always the default, as the variables of
the environment cannot store objects. -/
def EnvVarProvider.ObjectEvaluation {α : Type} (_caseTable : Char → Char) (_env : Environ)
    (_e : EnvVarProvider) (_ctx : Context) (_flag : String) (defaultValue : α)
    (_evalCtx : FlattenedContext) : InterfaceResolutionDetail α :=
  { Value := defaultValue
    ProviderResolutionDetail := { Variant := "default-variant", Reason := DefaultReason } }

end Evaluations

/-- An environment holding one variable. -/
def envOf (name value : String) : Environ := fun k => if k = name then some value else none

/-! ## Notions of the specification -/

/-- Follows the specification's words: the flag key upper-cased, with every
`-` and every `.` replaced by `_`. -/
def specUpperKey (caseTable : Char → Char) (k : String) : String :=
  ⟨(k.data.map (unicodeToUpper caseTable)).map (fun c => if c = '-' ∨ c = '.' then '_' else c)⟩

/-- An ASCII lower-case letter, `a` to `z`. -/
def asciiLower (c : Char) : Prop := 'a'.toNat ≤ c.toNat ∧ c.toNat ≤ 'z'.toNat

instance (c : Char) : Decidable (asciiLower c) := by unfold asciiLower; infer_instance

/-- A decimal digit, `0` to `9`. -/
def isDecDigit (c : Char) : Prop := '0'.toNat ≤ c.toNat ∧ c.toNat ≤ '9'.toNat

instance (c : Char) : Decidable (isDecDigit c) := by unfold isDecDigit; infer_instance

/-- One step of reading a decimal numeral from the left. -/
def decStep (n : Nat) (c : Char) : Nat := n * 10 + (c.toNat - '0'.toNat)

/-- The number a string of decimal digits denotes. -/
def decimalValue (ds : List Char) : Nat := ds.foldl decStep 0

/-- Follows the claim's words, a valid base-10 signed 64-bit integer literal:
an optional sign `+` or `-`, then one or more decimal digits, denoting a value
from `-2^63` to `2^63 - 1`.  The result is that value, `none` for any other
string. -/
def int64Literal (s : String) : Option Int :=
  let ds := if s.data.head? = some '+' ∨ s.data.head? = some '-' then s.data.tail else s.data
  let v : Int := if s.data.head? = some '-' then -(decimalValue ds : Int) else decimalValue ds
  if ds ≠ [] ∧ (∀ c ∈ ds, isDecDigit c) ∧ -2 ^ 63 ≤ v ∧ v < 2 ^ 63 then some v else none

/-- What the contract asks of a result computed for the default `d`: no error
is set, the (Variant, Reason) pair is (`env-var`, `TargetingMatch`) or
(`default-variant`, `Default`), and under the second pair the value is `d`. -/
def WellTagged {T : Type} (d : T) (r : GenericResolutionDetail T) : Prop :=
  r.ProviderResolutionDetail.ResolutionError = {} ∧
  ((r.ProviderResolutionDetail.Variant = "env-var" ∧
      r.ProviderResolutionDetail.Reason = TargetingMatchReason) ∨
    (r.ProviderResolutionDetail.Variant = "default-variant" ∧
      r.ProviderResolutionDetail.Reason = DefaultReason)) ∧
  (r.ProviderResolutionDetail.Variant = "default-variant" ∧
      r.ProviderResolutionDetail.Reason = DefaultReason → r.Value = d)

/-- Follows the claim's words: the six tokens read as `true`. -/
def trueTokens : List String := ["1", "t", "T", "TRUE", "true", "True"]

/-- Follows the claim's words: the six tokens read as `false`. -/
def falseTokens : List String := ["0", "f", "F", "FALSE", "false", "False"]

/-- Follows the comment's words, an alphanumeric character or an underscore:
a letter `A`..`Z` or `a`..`z`, a digit, or `_`. -/
def isAlphanumOrUnderscore (c : Char) : Bool := c.isAlphanum || c == '_'

/-- Follows the claim's words, the canonical base-10 rendering of an integer:
the decimal digits of its magnitude, most significant first and without
leading zeros (`0` for zero), after a `-` when the integer is negative. -/
def decimalRendering (n : Int) : String :=
  if n < 0 then ⟨'-' :: Nat.toDigits 10 n.natAbs⟩ else ⟨Nat.toDigits 10 n.natAbs⟩

/-- Follows the claim's words, a well-formed decimal integer literal: an
optional sign `+` or `-`, then one or more decimal digits.  The result is the
integer the literal denotes, of any size, `none` for any other string. -/
def decimalLiteral (s : String) : Option Int :=
  let ds := if s.data.head? = some '+' ∨ s.data.head? = some '-' then s.data.tail else s.data
  let v : Int := if s.data.head? = some '-' then -(decimalValue ds : Int) else decimalValue ds
  if ds ≠ [] ∧ (∀ c ∈ ds, isDecDigit c) then some v else none

/-- The outcome of a Go parser, which returns a value and an error: the value
when the error is `nil`, failure otherwise. -/
def parseOutcome {T : Type} (r : T × Option NumError) : Option T :=
  match r with
  | (v, none) => some v
  | (_, some _) => none

/-- Follows the specification's words, the one resolution function: look up
the raw value at `getEnvVarName(flag)`; when it is non-empty and the parser
succeeds on it, return the parse result with variant `env-var` and reason
`TargetingMatch`; otherwise return the default with variant `default-variant`
and reason `Default`. -/
def genericEvaluation {T : Type} (parse : String → Option T) (caseTable : Char → Char)
    (env : Environ) (e : EnvVarProvider) (flag : String) (defaultValue : T) :
    GenericResolutionDetail T :=
  match (if Getenv env (e.getEnvVarName caseTable flag) ≠ "" then
      parse (Getenv env (e.getEnvVarName caseTable flag)) else none) with
  | some v =>
    { Value := v
      ProviderResolutionDetail := { Variant := "env-var", Reason := TargetingMatchReason } }
  | none =>
    { Value := defaultValue
      ProviderResolutionDetail := { Variant := "default-variant", Reason := DefaultReason } }

/-! ## Lemmas on the runtime model -/

theorem toNat_ofNat_of_lt (n : Nat) (h : n < 0xD800) : (Char.ofNat n).toNat = n := by
  have hv : n.isValidChar := Or.inl h
  simp [Char.ofNat, hv, Char.toNat, Char.ofNatAux, UInt32.toNat]

/-- The fast paths of `strings.ToUpper` agree with mapping `unicode.ToUpper`
over the code points. -/
theorem ToUpper_data (caseTable : Char → Char) (s : String) :
    (ToUpper caseTable s).data = s.data.map (unicodeToUpper caseTable) := by
  unfold ToUpper
  simp only
  split_ifs with h1 h2
  · simp only [List.all_eq_true, decide_eq_true_eq, Bool.not_eq_true', List.any_eq_false] at h1 h2
    conv_lhs => rw [← List.map_id s.data]
    apply List.map_congr_left
    intro c hc
    have := h1 c hc
    have := h2 c hc
    simp only [unicodeToUpper, toUpperASCII, MaxASCII, RuneSelf] at *
    rw [if_pos (by omega), if_neg (by simpa using this)]
    rfl
  · simp only [List.all_eq_true, decide_eq_true_eq] at h1
    apply List.map_congr_left
    intro c hc
    have := h1 c hc
    simp only [unicodeToUpper, MaxASCII, RuneSelf] at *
    rw [if_pos (by omega)]
  · rfl

/-- Replacing a one-character `old` by a one-character `new` maps over the
characters. -/
theorem replaceLoop_single (a b : Char) (s : List Char) :
    replaceLoop [a] [b] s 0 = s.map (fun c => if c = a then b else c) := by
  induction s with
  | nil => rfl
  | cons c t ih =>
    by_cases h : c = a
    · subst h
      simp [replaceLoop, ih]
    · have h' : ¬ a = c := fun e => h e.symm
      simp [replaceLoop, ih, h, h']

theorem ReplaceAll_dash (s : String) :
    (ReplaceAll s "-" "_").data = s.data.map (fun c => if c = '-' then '_' else c) := by
  have h1 : ¬ ("-" : String) = "_" := by decide
  have h2 : ¬ ("-" : String).data = [] := by decide
  simp only [ReplaceAll, if_neg h1, if_neg h2]
  exact replaceLoop_single '-' '_' s.data

theorem ReplaceAll_dot (s : String) :
    (ReplaceAll s "." "_").data = s.data.map (fun c => if c = '.' then '_' else c) := by
  have h1 : ¬ ("." : String) = "_" := by decide
  have h2 : ¬ ("." : String).data = [] := by decide
  simp only [ReplaceAll, if_neg h1, if_neg h2]
  exact replaceLoop_single '.' '_' s.data

theorem sanitized_data (caseTable : Char → Char) (k : String) :
    (ReplaceAll (ReplaceAll (ToUpper caseTable k) "-" "_") "." "_").data =
      (specUpperKey caseTable k).data := by
  rw [ReplaceAll_dot, ReplaceAll_dash, ToUpper_data]
  simp only [specUpperKey, List.map_map]
  apply List.map_congr_left
  intro c _
  simp only [Function.comp]
  by_cases h1 : unicodeToUpper caseTable c = '-'
  · simp [h1]
  · by_cases h2 : unicodeToUpper caseTable c = '.'
    · simp [h2]
    · simp [h1, h2]

theorem sanitized_eq (caseTable : Char → Char) (k : String) :
    ReplaceAll (ReplaceAll (ToUpper caseTable k) "-" "_") "." "_" = specUpperKey caseTable k :=
  String.ext (sanitized_data caseTable k)

/-! ## `strconv.ParseInt` against decimal literals -/

theorem digitVal_of_digit (c : Char) (h : isDecDigit c) :
    digitVal c = some (c.toNat - '0'.toNat) := by
  unfold digitVal
  exact if_pos h

theorem digitVal_of_not_digit (c : Char) (h : ¬ isDecDigit c) :
    digitVal c = none ∨ ∃ d, 10 ≤ d ∧ digitVal c = some d := by
  unfold digitVal
  rw [if_neg (show ¬ ('0'.toNat ≤ c.toNat ∧ c.toNat ≤ '9'.toNat) from h)]
  split_ifs
  · exact Or.inr ⟨_, Nat.le_add_left _ _, rfl⟩
  · exact Or.inl rfl

theorem le_foldl_decStep (ds : List Char) (n : Nat) : n ≤ ds.foldl decStep n := by
  induction ds generalizing n with
  | nil => exact Nat.le_refl _
  | cons c cs ih =>
    have := ih (decStep n c)
    simp only [List.foldl_cons]
    unfold decStep at this ⊢
    omega

/-- The cutoff `maxUint64/10 + 1` and the bound `maxVal` of
`ParseUint(s, 10, 64)`. -/
theorem cutoff10_eq : maxUint64 / 10 + 1 = 1844674407370955162 := by decide

theorem maxVal64_eq : (2 ^ 64 % 2 ^ 64 + 2 ^ 64 - 1) % 2 ^ 64 = 18446744073709551615 := by
  decide

/-- The three outcomes of the loop of `ParseUint` in base 10: the value when
every character is a digit and the value fits 64 bits, a syntax error at a
character that is no digit, a range error (with `maxVal`) on overflow. -/
theorem parseUintLoop10 (ds : List Char) (n : Nat) (hn : n < 2 ^ 64) :
    (parseUintLoop 10 1844674407370955162 18446744073709551615 ds n = (ds.foldl decStep n, none)
        ∧ (∀ c ∈ ds, isDecDigit c) ∧ ds.foldl decStep n < 2 ^ 64)
    ∨ (parseUintLoop 10 1844674407370955162 18446744073709551615 ds n = (0, some .ErrSyntax)
        ∧ ¬ (∀ c ∈ ds, isDecDigit c))
    ∨ (parseUintLoop 10 1844674407370955162 18446744073709551615 ds n
          = (18446744073709551615, some .ErrRange)
        ∧ ¬ ds.foldl decStep n < 2 ^ 64) := by
  induction ds generalizing n with
  | nil =>
    left
    exact ⟨rfl, by simp, hn⟩
  | cons c cs ih =>
    by_cases hc : isDecDigit c
    · have hd := digitVal_of_digit c hc
      have hlt : c.toNat - '0'.toNat < 10 := by
        have h0 : ('0'.toNat : Nat) = 48 := rfl
        have h9 : ('9'.toNat : Nat) = 57 := rfl
        have := hc
        unfold isDecDigit at this
        omega
      have hmono := le_foldl_decStep cs (decStep n c)
      simp only [List.foldl_cons]
      unfold parseUintLoop
      simp only [hd]
      rw [if_neg (by omega)]
      by_cases hcut : n ≥ 1844674407370955162
      · rw [if_pos hcut]
        right; right
        refine ⟨rfl, ?_⟩
        unfold decStep at hmono ⊢
        omega
      · rw [if_neg hcut]
        have e1 : n * 10 % 2 ^ 64 = n * 10 := Nat.mod_eq_of_lt (by omega)
        simp only [e1]
        by_cases hov : n * 10 + (c.toNat - '0'.toNat) < 2 ^ 64
        · have e2 : (n * 10 + (c.toNat - '0'.toNat)) % 2 ^ 64 = n * 10 + (c.toNat - '0'.toNat) :=
            Nat.mod_eq_of_lt hov
          simp only [e2]
          rw [if_neg (by omega)]
          rcases ih (n * 10 + (c.toNat - '0'.toNat)) hov with h | h | h
          · left
            refine ⟨h.1, ?_, h.2.2⟩
            intro x hx
            rcases List.mem_cons.mp hx with rfl | hx
            · exact hc
            · exact h.2.1 x hx
          · right; left
            refine ⟨h.1, fun hall => h.2 fun x hx => hall x (List.mem_cons_of_mem _ hx)⟩
          · right; right
            exact h
        · have e2 : (n * 10 + (c.toNat - '0'.toNat)) % 2 ^ 64
              = n * 10 + (c.toNat - '0'.toNat) - 2 ^ 64 := by
            rw [Nat.mod_eq_sub_mod (by omega)]
            exact Nat.mod_eq_of_lt (by omega)
          simp only [e2]
          rw [if_pos (by omega)]
          right; right
          refine ⟨rfl, ?_⟩
          unfold decStep at hmono ⊢
          omega
    · right; left
      refine ⟨?_, fun hall => hc (hall c (List.mem_cons_self _ _))⟩
      unfold parseUintLoop
      rcases digitVal_of_not_digit c hc with h | ⟨d, hd, h⟩
      · simp only [h]
      · simp only [h]
        rw [if_pos hd]

theorem ParseUint10 (s : String) (hs : s.data ≠ []) :
    ParseUint s 10 64 =
      match parseUintLoop 10 1844674407370955162 18446744073709551615 s.data 0 with
      | (n, none) => (n, none)
      | (n, some err) => (n, some { Func := "ParseUint", Num := s, Err := err }) := by
  have h0 : ¬ s = "" := fun e => hs (by rw [e])
  unfold ParseUint
  rw [if_neg h0, if_neg (by decide), if_neg (by decide)]
  simp only [cutoff10_eq, IntSize, ite_self, maxVal64_eq]

theorem ParseUint10_empty (s : String) (hs : s.data = []) :
    ParseUint s 10 64 = (0, some (syntaxError "ParseUint" s)) := by
  have h0 : s = "" := String.ext hs
  unfold ParseUint
  rw [if_pos h0]

/-- The three outcomes of `ParseUint(s, 10, 64)` on a non-empty string. -/
theorem ParseUint10_cases (s : String) (hs : s.data ≠ []) :
    (ParseUint s 10 64 = (decimalValue s.data, none)
        ∧ (∀ c ∈ s.data, isDecDigit c) ∧ decimalValue s.data < 2 ^ 64)
    ∨ (ParseUint s 10 64 = (0, some (syntaxError "ParseUint" s))
        ∧ ¬ (∀ c ∈ s.data, isDecDigit c))
    ∨ (ParseUint s 10 64 = (18446744073709551615, some (rangeError "ParseUint" s))
        ∧ ¬ decimalValue s.data < 2 ^ 64) := by
  rw [ParseUint10 s hs]
  unfold decimalValue
  rcases parseUintLoop10 s.data 0 (by decide) with h | h | h
  · left; rw [h.1]; exact ⟨rfl, h.2⟩
  · right; left; rw [h.1]; exact ⟨rfl, h.2⟩
  · right; right; rw [h.1]; exact ⟨rfl, h.2⟩


theorem toInt64_of_lt (n : Nat) (h : n < 2 ^ 63) : toInt64 n = n := by
  unfold toInt64
  have e : n % 2 ^ 64 = n := Nat.mod_eq_of_lt (by omega)
  rw [e, if_pos h]

theorem negInt64_toInt64 (n : Nat) (h : n ≤ 2 ^ 63) : negInt64 (toInt64 n) = -(n : Int) := by
  unfold negInt64 toInt64
  have e : n % 2 ^ 64 = n := Nat.mod_eq_of_lt (by omega)
  rw [e]
  split_ifs with h1
  · omega
  · have : n = 2 ^ 63 := by omega
    subst this
    decide

/-- The string `ParseInt` hands to `ParseUint` is the literal without its
sign. -/
theorem stripSign_data (s : String) :
    (if s.data.head? = some '+' then (⟨s.data.tail⟩ : String)
      else if s.data.head? = some '-' then ⟨s.data.tail⟩ else s).data =
    if s.data.head? = some '+' ∨ s.data.head? = some '-' then s.data.tail else s.data := by
  by_cases h1 : s.data.head? = some '+'
  · simp [h1]
  · by_cases h2 : s.data.head? = some '-'
    · simp [h2]
    · simp [h1, h2]

/-- `ParseInt(s, 10, 64)` succeeds exactly on the base-10 signed 64-bit
literals, with the value of the literal; on every other string it returns an
error. -/
theorem ParseInt10_cases (s : String) :
    (∃ v, int64Literal s = some v ∧ ParseInt s 10 64 = (v, none)) ∨
    (int64Literal s = none ∧ ∃ n e, ParseInt s 10 64 = (n, some e)) := by
  by_cases h0 : s = ""
  · subst h0
    right
    exact ⟨by decide, _, _, rfl⟩
  · unfold ParseInt int64Literal
    rw [if_neg h0]
    simp only [← stripSign_data s]
    generalize (if s.data.head? = some '+' then (⟨s.data.tail⟩ : String)
      else if s.data.head? = some '-' then ⟨s.data.tail⟩ else s) = s'
    have hc : (2 : Nat) ^ ((if 64 = 0 then IntSize else 64) - 1) % 2 ^ 64 = 2 ^ 63 := by decide
    simp only [hc]
    by_cases hs' : s'.data = []
    · right
      rw [ParseUint10_empty s' hs']
      simp [hs', syntaxError]
    · rcases ParseUint10_cases s' hs' with ⟨hr, hdig, hlt⟩ | ⟨hr, hdig⟩ | ⟨hr, hlt⟩
      · rw [hr]
        simp only [Option.any_none, Bool.false_eq_true, if_false, decide_eq_true_eq]
        by_cases hneg : s.data.head? = some '-'
        · simp only [hneg, not_true_eq_false, false_and, if_false, true_and, if_true]
          by_cases hbig : decimalValue s'.data > 2 ^ 63
          · right
            rw [if_pos hbig]
            refine ⟨?_, _, _, rfl⟩
            rw [if_neg]
            rintro ⟨_, _, h1, _⟩
            omega
          · left
            rw [if_neg hbig]
            refine ⟨-(decimalValue s'.data : Int), ?_, ?_⟩
            · rw [if_pos]
              exact ⟨hs', hdig, by omega, by omega⟩
            · rw [negInt64_toInt64 _ (by omega)]
        · simp only [hneg, not_false_eq_true, true_and, if_false, false_and]
          by_cases hbig : decimalValue s'.data ≥ 2 ^ 63
          · right
            rw [if_pos hbig]
            refine ⟨?_, _, _, rfl⟩
            rw [if_neg]
            rintro ⟨_, _, _, h1⟩
            omega
          · left
            rw [if_neg hbig]
            refine ⟨(decimalValue s'.data : Int), ?_, ?_⟩
            · rw [if_pos]
              exact ⟨hs', hdig, by omega, by omega⟩
            · rw [toInt64_of_lt _ (by omega)]
      · right
        rw [hr]
        refine ⟨?_, ?_⟩
        · rw [if_neg]
          rintro ⟨_, h1, _⟩
          exact hdig h1
        · simp [syntaxError]
      · right
        rw [hr]
        refine ⟨?_, ?_⟩
        · rw [if_neg]
          rintro ⟨_, _, h1, h2⟩
          split_ifs at h1 h2 <;> omega
        · simp only [rangeError, Option.any_some, ne_eq, not_true_eq_false, decide_False,
            Bool.false_eq_true, if_false, decide_eq_true_eq]
          by_cases hneg : s.data.head? = some '-'
          · simp [hneg]
          · simp [hneg]

/-! ## The name mapper -/

/-- C1: for every flag key `k` and prefix `p`, `getEnvVarName` returns `U` when
`p` is empty and `p + "_" + U` otherwise, where `U` is `k` upper-cased with
every `-` and `.` replaced by `_`; the prefix is prepended verbatim, and the
function is total. -/
theorem getEnvVarName_eq_spec (caseTable : Char → Char) (p k : String) :
    (EnvVarProvider.mk p).getEnvVarName caseTable k =
      if p = "" then specUpperKey caseTable k else p ++ "_" ++ specUpperKey caseTable k := by
  unfold EnvVarProvider.getEnvVarName
  simp only [sanitized_eq]
  by_cases hp : p = ""
  · simp [hp]
  · simp [hp]

theorem toUpperASCII_not_lower (c : Char) : ¬ asciiLower (toUpperASCII c) := by
  unfold toUpperASCII asciiLower
  split_ifs with h
  · have h' : 97 ≤ c.toNat ∧ c.toNat ≤ 122 := h
    show ¬ (97 ≤ (Char.ofNat (c.toNat - (97 - 65))).toNat ∧
      (Char.ofNat (c.toNat - (97 - 65))).toNat ≤ 122)
    rw [toNat_ofNat_of_lt _ (by omega)]
    omega
  · exact h

theorem toUpperASCII_le (c : Char) (h : c.toNat ≤ MaxASCII) :
    (toUpperASCII c).toNat ≤ MaxASCII := by
  unfold toUpperASCII
  split_ifs with h1
  · have h' : 97 ≤ c.toNat ∧ c.toNat ≤ 122 := h1
    show (Char.ofNat (c.toNat - (97 - 65))).toNat ≤ MaxASCII
    rw [toNat_ofNat_of_lt _ (by omega)]
    unfold MaxASCII
    omega
  · exact h

theorem toUpperLatin1_not_lower (c : Char) (hc : MaxASCII < c.toNat) :
    ¬ asciiLower (toUpperLatin1 c) := by
  have e : ('a'.toNat : Nat) = 97 := rfl
  have e2 : ('z'.toNat : Nat) = 122 := rfl
  unfold toUpperLatin1 asciiLower
  unfold MaxASCII at hc
  rw [e, e2]
  split_ifs with h1 h2 h3 h4
  · rw [toNat_ofNat_of_lt _ (by omega)]; omega
  · rw [toNat_ofNat_of_lt _ (by omega)]; omega
  · rw [toNat_ofNat_of_lt _ (by omega)]; omega
  · rw [toNat_ofNat_of_lt _ (by omega)]; omega
  · omega

theorem unicodeToUpper_not_lower (caseTable : Char → Char)
    (hT : ∀ r : Char, MaxLatin1 < r.toNat → ¬ asciiLower (caseTable r)) (c : Char) :
    ¬ asciiLower (unicodeToUpper caseTable c) := by
  unfold unicodeToUpper
  split_ifs with h1 h2
  · exact toUpperASCII_not_lower c
  · exact toUpperLatin1_not_lower c (by omega)
  · exact hT c (by omega)

theorem isLowerLatin1_iff (c : Char) :
    isLowerLatin1 c = true ↔
      (97 ≤ c.toNat ∧ c.toNat ≤ 122) ∨ c.toNat = 0xB5 ∨
        (0xDF ≤ c.toNat ∧ c.toNat ≤ 0xF6) ∨ (0xF8 ≤ c.toNat ∧ c.toNat ≤ 0xFF) := by
  unfold isLowerLatin1
  rw [decide_eq_true_eq]
  rfl

/-- The only Latin-1 lower-case letter that `unicode.ToUpper` returns for a
Latin-1 code point is `ß`; beyond Latin-1 this holds when the case table yields
no Latin-1 lower-case letter. -/
theorem unicodeToUpper_lower_only_sharp_s (caseTable : Char → Char) (r : Char)
    (hr : r.toNat ≤ MaxLatin1 ∨ isLowerLatin1 (caseTable r) = false)
    (hl : isLowerLatin1 (unicodeToUpper caseTable r) = true) :
    unicodeToUpper caseTable r = 'ß' := by
  unfold unicodeToUpper at hl ⊢
  by_cases hA : r.toNat ≤ MaxASCII
  · rw [if_pos hA] at hl
    have h1 := toUpperASCII_not_lower r
    have h2 := toUpperASCII_le r hA
    unfold asciiLower at h1
    have h1' : ¬ (97 ≤ (toUpperASCII r).toNat ∧ (toUpperASCII r).toNat ≤ 122) := h1
    unfold MaxASCII at h2
    rw [isLowerLatin1_iff] at hl
    omega
  · rw [if_neg hA] at hl ⊢
    by_cases hL : r.toNat ≤ MaxLatin1
    · rw [if_pos hL] at hl ⊢
      unfold MaxASCII at hA
      unfold MaxLatin1 at hL
      rw [isLowerLatin1_iff] at hl
      unfold toUpperLatin1 at hl ⊢
      split_ifs at hl ⊢ with c1 c2 c3 c4
      · rw [toNat_ofNat_of_lt _ (by omega)] at hl
        omega
      · rw [toNat_ofNat_of_lt _ (by omega)] at hl
        omega
      · rw [toNat_ofNat_of_lt _ (by omega)] at hl
        omega
      · rw [toNat_ofNat_of_lt _ (by omega)] at hl
        omega
      · have e : r.toNat = 0xDF := by omega
        rw [← Char.ofNat_toNat r, e]
    · rw [if_neg hL] at hl ⊢
      rcases hr with hr | hr
      · exact absurd hr hL
      · rw [hr] at hl
        exact absurd hl (by decide)

/-- C2 (as the code has it): on a provider with empty prefix the name contains
no `-` and no `.`; the only Latin-1 lower-case letter it can contain is `ß`,
which has no upper-case form: outright for a key of Latin-1 characters, and for
every key when the Unicode case table beyond Latin-1 yields no Latin-1
lower-case letter; and a `ß` of the key is kept in the name. -/
theorem getEnvVarName_lower_only_sharp_s (caseTable : Char → Char) (k : String) :
    (∀ c ∈ ((EnvVarProvider.mk "").getEnvVarName caseTable k).data, c ≠ '-' ∧ c ≠ '.') ∧
    ((∀ r ∈ k.data, r.toNat ≤ MaxLatin1) →
      ∀ c ∈ ((EnvVarProvider.mk "").getEnvVarName caseTable k).data,
        isLowerLatin1 c = true → c = 'ß') ∧
    ((∀ r : Char, MaxLatin1 < r.toNat → isLowerLatin1 (caseTable r) = false) →
      ∀ c ∈ ((EnvVarProvider.mk "").getEnvVarName caseTable k).data,
        isLowerLatin1 c = true → c = 'ß') ∧
    ('ß' ∈ k.data → 'ß' ∈ ((EnvVarProvider.mk "").getEnvVarName caseTable k).data) := by
  unfold EnvVarProvider.getEnvVarName
  simp only [sanitized_eq, ne_eq, not_true_eq_false, if_false, specUpperKey, List.mem_map]
  have key : ∀ r : Char, (r.toNat ≤ MaxLatin1 ∨ isLowerLatin1 (caseTable r) = false) →
      isLowerLatin1 (if unicodeToUpper caseTable r = '-' ∨ unicodeToUpper caseTable r = '.'
        then '_' else unicodeToUpper caseTable r) = true →
      (if unicodeToUpper caseTable r = '-' ∨ unicodeToUpper caseTable r = '.'
        then '_' else unicodeToUpper caseTable r) = 'ß' := by
    intro r hr
    split_ifs with h
    · intro hl
      exact absurd hl (by decide)
    · exact unicodeToUpper_lower_only_sharp_s caseTable r hr
  refine ⟨?_, ?_, ?_, ?_⟩
  · rintro c ⟨u, _, rfl⟩
    split_ifs with h
    · exact ⟨by decide, by decide⟩
    · exact ⟨fun e => h (Or.inl e), fun e => h (Or.inr e)⟩
  · rintro hk c ⟨u, ⟨r, hr, rfl⟩, rfl⟩
    exact key r (Or.inl (hk r hr))
  · rintro hT c ⟨u, ⟨r, _, rfl⟩, rfl⟩
    by_cases hL : r.toNat ≤ MaxLatin1
    · exact key r (Or.inl hL)
    · exact key r (Or.inr (hT r (by omega)))
  · intro h
    exact ⟨'ß', ⟨'ß', h, rfl⟩, rfl⟩

/-- C2, witness: under the identity table the Latin-1 key `éüµÿß-.a` has the
name `ÉÜΜŸß__A`, in which `é`, `ü`, `µ`, `ÿ` and `a` are upper-cased and `ß`
is the one lower-case letter left. -/
theorem getEnvVarName_lower_only_sharp_s_witness :
    ((∀ r ∈ ("éüµÿß-.a" : String).data, r.toNat ≤ MaxLatin1) ∧
      (∀ r : Char, MaxLatin1 < r.toNat → isLowerLatin1 (id r) = false)) ∧
    (EnvVarProvider.mk "").getEnvVarName id "éüµÿß-.a" = "ÉÜΜŸß__A" ∧
    (∀ c ∈ ("ÉÜΜŸß__A" : String).data,
      c ≠ '-' ∧ c ≠ '.' ∧ (isLowerLatin1 c = true → c = 'ß')) ∧
    'ß' ∈ ("ÉÜΜŸß__A" : String).data := by
  have hk : ∀ r ∈ ("éüµÿß-.a" : String).data, r.toNat ≤ MaxLatin1 := by decide
  have hT : ∀ r : Char, MaxLatin1 < r.toNat → isLowerLatin1 (id r) = false := by
    intro r hr
    unfold MaxLatin1 at hr
    cases hb : isLowerLatin1 (id r) with
    | false => rfl
    | true =>
      have h := (isLowerLatin1_iff (id r)).mp hb
      simp only [id] at h
      omega
  have h := getEnvVarName_lower_only_sharp_s id "éüµÿß-.a"
  have e : (EnvVarProvider.mk "").getEnvVarName id "éüµÿß-.a" = "ÉÜΜŸß__A" := by decide
  rw [e] at h
  exact ⟨⟨hk, hT⟩, e,
    fun c hc => ⟨(h.1 c hc).1, (h.1 c hc).2, h.2.1 hk c hc⟩, h.2.2.2 (by decide)⟩

/-- C2, counterexample: `ß` (U+00DF) is a lower-case letter with no upper-case
mapping in the case table, so the key `ß` is its own name. -/
theorem getEnvVarName_keeps_sharp_s :
    isLowerLatin1 'ß' = true ∧
    ∀ caseTable : Char → Char, (EnvVarProvider.mk "").getEnvVarName caseTable "ß" = "ß" :=
  ⟨by decide, fun _ => rfl⟩

/-! ## The resolver -/

section EvaluationTheorems

variable {Context FlattenedContext : Type}

theorem variant_ne : ("default-variant" : String) ≠ "env-var" := by decide

theorem Getenv_of_unset_or_empty (env : Environ) (k : String)
    (h : env k = none ∨ env k = some "") : Getenv env k = "" := by
  unfold Getenv
  split_ifs
  · rfl
  · rcases h with h | h <;> rw [h]

theorem Getenv_of_some (env : Environ) (k v : String) (hk : k ≠ "") (h : env k = some v) :
    Getenv env k = v := by
  unfold Getenv
  rw [if_neg hk, h]

theorem Getenv_empty_name (env : Environ) : Getenv env "" = "" := by
  unfold Getenv
  rw [if_pos rfl]

/-- The name of a flag is non-empty when the flag key or the prefix is. -/
theorem getEnvVarName_ne_empty (caseTable : Char → Char) (e : EnvVarProvider) (flag : String)
    (h : flag ≠ "" ∨ e.Prefix ≠ "") : e.getEnvVarName caseTable flag ≠ "" := by
  intro hn
  unfold EnvVarProvider.getEnvVarName at hn
  simp only [sanitized_eq] at hn
  have hl := congrArg (fun s : String => s.data.length) hn
  by_cases hp : e.Prefix = ""
  · rw [if_neg (not_not.mpr hp)] at hl
    simp only [specUpperKey, List.length_map] at hl
    rcases h with h | h
    · exact h (String.ext (List.length_eq_zero.mp hl))
    · exact h hp
  · rw [if_pos hp] at hl
    simp only [String.data_append, List.length_append, List.length_singleton,
      List.length_nil] at hl
    omega

/-- At the empty name, which only the empty flag key under the empty prefix
has, `os.Getenv` finds no value: the evaluations return the default whatever
the environment holds. -/
theorem evaluations_empty_name {F : Type} (ParseFloat : String → Nat → F × Option NumError)
    (caseTable : Char → Char) (env : Environ) (e : EnvVarProvider) (ctx : Context)
    (flag : String) (evalCtx : FlattenedContext)
    (db : Bool) (ds : String) (df : F) (di : Int)
    (hname : e.getEnvVarName caseTable flag = "") :
    e.BooleanEvaluation caseTable env ctx flag db evalCtx =
      { Value := db
        ProviderResolutionDetail := { Variant := "default-variant", Reason := DefaultReason } } ∧
    e.StringEvaluation caseTable env ctx flag ds evalCtx =
      { Value := ds
        ProviderResolutionDetail := { Variant := "default-variant", Reason := DefaultReason } } ∧
    e.FloatEvaluation ParseFloat caseTable env ctx flag df evalCtx =
      { Value := df
        ProviderResolutionDetail := { Variant := "default-variant", Reason := DefaultReason } } ∧
    e.IntEvaluation caseTable env ctx flag di evalCtx =
      { Value := di
        ProviderResolutionDetail := { Variant := "default-variant", Reason := DefaultReason } } := by
  unfold EnvVarProvider.BooleanEvaluation EnvVarProvider.StringEvaluation
    EnvVarProvider.FloatEvaluation EnvVarProvider.IntEvaluation
  simp only [hname, Getenv_empty_name, ne_eq, not_true_eq_false, if_false, and_self]

/-- C3: if the entry at `getEnvVarName(flag)` is unset or is the empty string,
`BooleanEvaluation` returns exactly the default with variant `default-variant`
and reason `Default`; both environments give this one result. -/
theorem BooleanEvaluation_unset_or_empty (caseTable : Char → Char) (env : Environ)
    (e : EnvVarProvider) (ctx : Context) (flag : String) (d : Bool)
    (evalCtx : FlattenedContext)
    (h : env (e.getEnvVarName caseTable flag) = none ∨
      env (e.getEnvVarName caseTable flag) = some "") :
    e.BooleanEvaluation caseTable env ctx flag d evalCtx =
      { Value := d
        ProviderResolutionDetail := { Variant := "default-variant", Reason := DefaultReason } } := by
  unfold EnvVarProvider.BooleanEvaluation
  simp only [Getenv_of_unset_or_empty env _ h, ne_eq, not_true_eq_false, if_false]

/-- C3, witness: an unset entry with default `true`. -/
theorem BooleanEvaluation_unset_or_empty_witness :
    (fun _ => none : Environ) ((EnvVarProvider.mk "").getEnvVarName id "my-flag") = none ∧
    (EnvVarProvider.mk "").BooleanEvaluation id (fun _ => none) () "my-flag" true () =
      { Value := true
        ProviderResolutionDetail := { Variant := "default-variant", Reason := DefaultReason } } :=
  ⟨rfl, BooleanEvaluation_unset_or_empty id (fun _ => none) ⟨""⟩ () "my-flag" true ()
    (Or.inl rfl)⟩

/-- C4: if the entry at `getEnvVarName(flag)`, a non-empty name (as it is for
every non-empty flag key), is the string `true`, `BooleanEvaluation` returns
exactly `true` with variant `env-var` and reason `TargetingMatch`, whatever the
default. -/
theorem BooleanEvaluation_true (caseTable : Char → Char) (env : Environ)
    (e : EnvVarProvider) (ctx : Context) (flag : String) (d : Bool)
    (evalCtx : FlattenedContext)
    (hname : e.getEnvVarName caseTable flag ≠ "")
    (h : env (e.getEnvVarName caseTable flag) = some "true") :
    e.BooleanEvaluation caseTable env ctx flag d evalCtx =
      { Value := true
        ProviderResolutionDetail := { Variant := "env-var", Reason := TargetingMatchReason } } := by
  unfold EnvVarProvider.BooleanEvaluation
  simp only [Getenv_of_some env _ _ hname h]
  rfl

/-- C4, witness: the entry `MY_FLAG=true` with default `false`. -/
theorem BooleanEvaluation_true_witness :
    ((EnvVarProvider.mk "").getEnvVarName id "my-flag" ≠ "" ∧
      envOf "MY_FLAG" "true" ((EnvVarProvider.mk "").getEnvVarName id "my-flag")
        = some "true") ∧
    (EnvVarProvider.mk "").BooleanEvaluation id (envOf "MY_FLAG" "true") () "my-flag" false () =
      { Value := true
        ProviderResolutionDetail := { Variant := "env-var", Reason := TargetingMatchReason } } :=
  ⟨⟨by decide, by decide⟩,
    BooleanEvaluation_true id (envOf "MY_FLAG" "true") ⟨""⟩ () "my-flag" false ()
      (by decide) (by decide)⟩

/-- C5: if the entry at `getEnvVarName(flag)` is non-empty but is not a valid
base-10 signed 64-bit integer literal, `IntEvaluation` returns exactly the
default, with variant `default-variant` and reason `Default`: the result it
returns in any environment where the entry is absent. -/
theorem IntEvaluation_malformed (caseTable : Char → Char) (env : Environ)
    (e : EnvVarProvider) (ctx : Context) (flag : String) (d : Int)
    (evalCtx : FlattenedContext) (v : String)
    (h : env (e.getEnvVarName caseTable flag) = some v) (hv : v ≠ "")
    (hbad : int64Literal v = none) :
    e.IntEvaluation caseTable env ctx flag d evalCtx =
      { Value := d
        ProviderResolutionDetail := { Variant := "default-variant", Reason := DefaultReason } } ∧
    ∀ env' : Environ, env' (e.getEnvVarName caseTable flag) = none →
      e.IntEvaluation caseTable env' ctx flag d evalCtx =
        e.IntEvaluation caseTable env ctx flag d evalCtx := by
  have main : e.IntEvaluation caseTable env ctx flag d evalCtx =
      { Value := d
        ProviderResolutionDetail :=
          { Variant := "default-variant", Reason := DefaultReason } } := by
    unfold EnvVarProvider.IntEvaluation
    by_cases hname : e.getEnvVarName caseTable flag = ""
    · simp only [hname, Getenv_empty_name, ne_eq, not_true_eq_false, if_false]
    · simp only [Getenv_of_some env _ _ hname h, ne_eq, hv, not_false_eq_true, if_true]
      rcases ParseInt10_cases v with ⟨w, hw, _⟩ | ⟨_, n, err, hp⟩
      · rw [hbad] at hw
        exact absurd hw (by simp)
      · rw [hp]
  refine ⟨main, fun env' h' => ?_⟩
  rw [main]
  unfold EnvVarProvider.IntEvaluation
  simp only [Getenv_of_unset_or_empty env' _ (Or.inl h'), ne_eq, not_true_eq_false, if_false]

/-- C5, witness: the entry `MY_FLAG=notanumber` with default 42. -/
theorem IntEvaluation_malformed_witness :
    (envOf "MY_FLAG" "notanumber" ((EnvVarProvider.mk "").getEnvVarName id "my-flag")
        = some "notanumber" ∧ "notanumber" ≠ "" ∧ int64Literal "notanumber" = none) ∧
    (EnvVarProvider.mk "").IntEvaluation id (envOf "MY_FLAG" "notanumber") () "my-flag" 42 () =
      { Value := 42
        ProviderResolutionDetail := { Variant := "default-variant", Reason := DefaultReason } } :=
  ⟨⟨by decide, by decide, by decide⟩,
    (IntEvaluation_malformed id (envOf "MY_FLAG" "notanumber") ⟨""⟩ () "my-flag" 42 ()
      "notanumber" (by decide) (by decide) (by decide)).1⟩

/-- C6: if the entry at `getEnvVarName(flag)` is the empty string,
`StringEvaluation` returns the default with variant `default-variant` and
reason `Default`; and in no environment does `StringEvaluation` return the
empty string with variant `env-var`. -/
theorem StringEvaluation_empty (caseTable : Char → Char) (env : Environ)
    (e : EnvVarProvider) (ctx : Context) (flag : String) (d : String)
    (evalCtx : FlattenedContext) :
    (env (e.getEnvVarName caseTable flag) = some "" →
      e.StringEvaluation caseTable env ctx flag d evalCtx =
        { Value := d
          ProviderResolutionDetail :=
            { Variant := "default-variant", Reason := DefaultReason } }) ∧
    ¬ ((e.StringEvaluation caseTable env ctx flag d evalCtx).Value = "" ∧
       (e.StringEvaluation caseTable env ctx flag d evalCtx).ProviderResolutionDetail.Variant
         = "env-var") := by
  constructor
  · intro h
    unfold EnvVarProvider.StringEvaluation
    simp only [Getenv_of_unset_or_empty env _ (Or.inr h), ne_eq, not_true_eq_false, if_false]
  · unfold EnvVarProvider.StringEvaluation
    simp only
    split_ifs with h
    · rintro ⟨h1, _⟩
      exact h h1
    · rintro ⟨_, h2⟩
      exact variant_ne h2

/-- C6, witness: the entry `MY_FLAG=` (empty) with default `fallback`. -/
theorem StringEvaluation_empty_witness :
    envOf "MY_FLAG" "" ((EnvVarProvider.mk "").getEnvVarName id "my-flag") = some "" ∧
    (EnvVarProvider.mk "").StringEvaluation id (envOf "MY_FLAG" "") () "my-flag" "fallback" () =
      { Value := "fallback"
        ProviderResolutionDetail := { Variant := "default-variant", Reason := DefaultReason } } :=
  ⟨by decide, (StringEvaluation_empty id (envOf "MY_FLAG" "") ⟨""⟩ () "my-flag" "fallback"
    ()).1 (by decide)⟩

/-- C7: for every non-empty raw value `v` stored at `getEnvVarName(flag)`, a
non-empty name (as it is for every non-empty flag key), `StringEvaluation`
returns exactly `v`, unchanged, with variant `env-var` and reason
`TargetingMatch`; the default is not used. -/
theorem StringEvaluation_nonempty (caseTable : Char → Char) (env : Environ)
    (e : EnvVarProvider) (ctx : Context) (flag : String) (d : String)
    (evalCtx : FlattenedContext) (v : String)
    (hname : e.getEnvVarName caseTable flag ≠ "")
    (h : env (e.getEnvVarName caseTable flag) = some v) (hv : v ≠ "") :
    e.StringEvaluation caseTable env ctx flag d evalCtx =
      { Value := v
        ProviderResolutionDetail := { Variant := "env-var", Reason := TargetingMatchReason } } := by
  unfold EnvVarProvider.StringEvaluation
  simp only [Getenv_of_some env _ _ hname h, ne_eq, hv, not_false_eq_true, if_true]

/-- C7, witness: the entry `APP_MY_FLAG= Mixed Case ` is returned with its
blanks and its case. -/
theorem StringEvaluation_nonempty_witness :
    ((EnvVarProvider.mk "APP").getEnvVarName id "my-flag" ≠ "" ∧
      envOf "APP_MY_FLAG" " Mixed Case " ((EnvVarProvider.mk "APP").getEnvVarName id "my-flag")
        = some " Mixed Case " ∧ " Mixed Case " ≠ "") ∧
    (EnvVarProvider.mk "APP").StringEvaluation id (envOf "APP_MY_FLAG" " Mixed Case ") ()
        "my-flag" "fallback" () =
      { Value := " Mixed Case "
        ProviderResolutionDetail := { Variant := "env-var", Reason := TargetingMatchReason } } :=
  ⟨⟨by decide, by decide, by decide⟩,
    StringEvaluation_nonempty id (envOf "APP_MY_FLAG" " Mixed Case ") ⟨"APP"⟩ () "my-flag"
      "fallback" () " Mixed Case " (by decide) (by decide) (by decide)⟩

/-- C8: for every flag key, prefix, default and environment (also one holding a
value at `getEnvVarName(flag)`), `ObjectEvaluation` returns exactly the default
with variant `default-variant` and reason `Default`. -/
theorem ObjectEvaluation_default {α : Type} (caseTable : Char → Char) (env : Environ)
    (e : EnvVarProvider) (ctx : Context) (flag : String) (d : α)
    (evalCtx : FlattenedContext) :
    e.ObjectEvaluation caseTable env ctx flag d evalCtx =
      { Value := d
        ProviderResolutionDetail := { Variant := "default-variant", Reason := DefaultReason } } :=
  rfl

/-- C9: each of the five evaluations returns, for every input and environment,
a result with no error set whose (Variant, Reason) pair is (`env-var`,
`TargetingMatch`) or (`default-variant`, `Default`), and whose value is the
supplied default under the second pair. -/
theorem evaluations_wellTagged {F α : Type} (ParseFloat : String → Nat → F × Option NumError)
    (caseTable : Char → Char) (env : Environ) (e : EnvVarProvider) (ctx : Context)
    (flag : String) (evalCtx : FlattenedContext)
    (db : Bool) (ds : String) (df : F) (di : Int) (dobj : α) :
    WellTagged db (e.BooleanEvaluation caseTable env ctx flag db evalCtx) ∧
    WellTagged ds (e.StringEvaluation caseTable env ctx flag ds evalCtx) ∧
    WellTagged df (e.FloatEvaluation ParseFloat caseTable env ctx flag df evalCtx) ∧
    WellTagged di (e.IntEvaluation caseTable env ctx flag di evalCtx) ∧
    WellTagged dobj (e.ObjectEvaluation caseTable env ctx flag dobj evalCtx) := by
  have hd : ∀ {T : Type} (d : T), WellTagged d
      { Value := d
        ProviderResolutionDetail :=
          { Variant := "default-variant", Reason := DefaultReason } } :=
    fun d => ⟨rfl, Or.inr ⟨rfl, rfl⟩, fun _ => rfl⟩
  have hm : ∀ {T : Type} (d v : T), WellTagged d
      { Value := v
        ProviderResolutionDetail :=
          { Variant := "env-var", Reason := TargetingMatchReason } } :=
    fun d v => ⟨rfl, Or.inl ⟨rfl, rfl⟩, fun h => absurd h.1.symm variant_ne⟩
  refine ⟨?_, ?_, ?_, ?_, hd dobj⟩
  · unfold EnvVarProvider.BooleanEvaluation
    simp only
    split_ifs
    · split
      · exact hm _ _
      · exact hd _
    · exact hd _
  · unfold EnvVarProvider.StringEvaluation
    simp only
    split_ifs
    · exact hm _ _
    · exact hd _
  · unfold EnvVarProvider.FloatEvaluation
    simp only
    split_ifs
    · split
      · exact hm _ _
      · exact hd _
    · exact hd _
  · unfold EnvVarProvider.IntEvaluation
    simp only
    split_ifs
    · split
      · exact hm _ _
      · exact hd _
    · exact hd _

theorem Getenv_congr (env₁ env₂ : Environ) (k : String) (h : env₁ k = env₂ k) :
    Getenv env₁ k = Getenv env₂ k := by
  unfold Getenv
  rw [h]

/-- The four scalar evaluations read the environment at one name only, and do
not read the context arguments. -/
theorem evaluations_congr {F : Type} (ParseFloat : String → Nat → F × Option NumError)
    (caseTable : Char → Char) (e : EnvVarProvider) (flag : String)
    (db : Bool) (ds : String) (df : F) (di : Int)
    (env₁ env₂ : Environ) (ctx₁ ctx₂ : Context) (evalCtx₁ evalCtx₂ : FlattenedContext)
    (h : env₁ (e.getEnvVarName caseTable flag) = env₂ (e.getEnvVarName caseTable flag)) :
    e.BooleanEvaluation caseTable env₁ ctx₁ flag db evalCtx₁ =
      e.BooleanEvaluation caseTable env₂ ctx₂ flag db evalCtx₂ ∧
    e.StringEvaluation caseTable env₁ ctx₁ flag ds evalCtx₁ =
      e.StringEvaluation caseTable env₂ ctx₂ flag ds evalCtx₂ ∧
    e.FloatEvaluation ParseFloat caseTable env₁ ctx₁ flag df evalCtx₁ =
      e.FloatEvaluation ParseFloat caseTable env₂ ctx₂ flag df evalCtx₂ ∧
    e.IntEvaluation caseTable env₁ ctx₁ flag di evalCtx₁ =
      e.IntEvaluation caseTable env₂ ctx₂ flag di evalCtx₂ := by
  have hg := Getenv_congr env₁ env₂ _ h
  unfold EnvVarProvider.BooleanEvaluation EnvVarProvider.StringEvaluation
    EnvVarProvider.FloatEvaluation EnvVarProvider.IntEvaluation
  simp only [hg, and_self]

/-- C10: for two environments that hold the same value at the single name
`getEnvVarName(flag)`, each typed evaluation returns the same result, whatever
the context and evaluation-context arguments of the two calls; changing the
entry at any other name does not change the result. -/
theorem evaluations_depend_on_one_entry {F : Type}
    (ParseFloat : String → Nat → F × Option NumError)
    (caseTable : Char → Char) (e : EnvVarProvider) (flag : String)
    (db : Bool) (ds : String) (df : F) (di : Int)
    (env₁ : Environ) (ctx₁ : Context) (evalCtx₁ : FlattenedContext) :
    (∀ (env₂ : Environ) (ctx₂ : Context) (evalCtx₂ : FlattenedContext),
      env₁ (e.getEnvVarName caseTable flag) = env₂ (e.getEnvVarName caseTable flag) →
        e.BooleanEvaluation caseTable env₁ ctx₁ flag db evalCtx₁ =
          e.BooleanEvaluation caseTable env₂ ctx₂ flag db evalCtx₂ ∧
        e.StringEvaluation caseTable env₁ ctx₁ flag ds evalCtx₁ =
          e.StringEvaluation caseTable env₂ ctx₂ flag ds evalCtx₂ ∧
        e.FloatEvaluation ParseFloat caseTable env₁ ctx₁ flag df evalCtx₁ =
          e.FloatEvaluation ParseFloat caseTable env₂ ctx₂ flag df evalCtx₂ ∧
        e.IntEvaluation caseTable env₁ ctx₁ flag di evalCtx₁ =
          e.IntEvaluation caseTable env₂ ctx₂ flag di evalCtx₂) ∧
    (∀ (k : String) (v : Option String), k ≠ e.getEnvVarName caseTable flag →
        e.BooleanEvaluation caseTable env₁ ctx₁ flag db evalCtx₁ =
          e.BooleanEvaluation caseTable (Function.update env₁ k v) ctx₁ flag db evalCtx₁ ∧
        e.StringEvaluation caseTable env₁ ctx₁ flag ds evalCtx₁ =
          e.StringEvaluation caseTable (Function.update env₁ k v) ctx₁ flag ds evalCtx₁ ∧
        e.FloatEvaluation ParseFloat caseTable env₁ ctx₁ flag df evalCtx₁ =
          e.FloatEvaluation ParseFloat caseTable (Function.update env₁ k v) ctx₁ flag df
            evalCtx₁ ∧
        e.IntEvaluation caseTable env₁ ctx₁ flag di evalCtx₁ =
          e.IntEvaluation caseTable (Function.update env₁ k v) ctx₁ flag di evalCtx₁) := by
  refine ⟨fun env₂ ctx₂ evalCtx₂ h =>
      evaluations_congr ParseFloat caseTable e flag db ds df di env₁ env₂ ctx₁ ctx₂
        evalCtx₁ evalCtx₂ h,
    fun k v hk =>
      evaluations_congr ParseFloat caseTable e flag db ds df di env₁ _ ctx₁ ctx₁
        evalCtx₁ evalCtx₁ ?_⟩
  rw [Function.update_noteq (Ne.symm hk)]

/-- C10, witness: with `MY_FLAG=12` in both, an environment that also sets
`OTHER=1`, called with other context arguments, gives the same results. -/
theorem evaluations_depend_on_one_entry_witness :
    envOf "MY_FLAG" "12" ((EnvVarProvider.mk "").getEnvVarName id "my-flag") =
      Function.update (envOf "MY_FLAG" "12") "OTHER" (some "1")
        ((EnvVarProvider.mk "").getEnvVarName id "my-flag") ∧
    (EnvVarProvider.mk "").BooleanEvaluation id (envOf "MY_FLAG" "12") (0 : Nat) "my-flag" true
        (0 : Nat) =
      (EnvVarProvider.mk "").BooleanEvaluation id
        (Function.update (envOf "MY_FLAG" "12") "OTHER" (some "1")) (1 : Nat) "my-flag" true
        (2 : Nat) ∧
    (EnvVarProvider.mk "").IntEvaluation id (envOf "MY_FLAG" "12") (0 : Nat) "my-flag" 5
        (0 : Nat) =
      (EnvVarProvider.mk "").IntEvaluation id
        (Function.update (envOf "MY_FLAG" "12") "OTHER" (some "1")) (1 : Nat) "my-flag" 5
        (2 : Nat) :=
  have h := (evaluations_depend_on_one_entry (fun _ _ => ((0 : Nat), none)) id ⟨""⟩ "my-flag"
    true "" 0 5 (envOf "MY_FLAG" "12") (0 : Nat) (0 : Nat)).1
    (Function.update (envOf "MY_FLAG" "12") "OTHER" (some "1")) (1 : Nat) (2 : Nat) (by decide)
  ⟨by decide, h.1, h.2.2.2⟩

end EvaluationTheorems

/-! ## The name mapper: examples, collisions -/

/-- C11, the code at the failing input: the key `my flag` keeps its blank,
which is neither alphanumeric nor an underscore; only `-` and `.` are
replaced. -/
theorem getEnvVarName_keeps_blank :
    (∀ caseTable : Char → Char,
      (EnvVarProvider.mk "").getEnvVarName caseTable "my flag" = "MY FLAG") ∧
    ' ' ∈ ("MY FLAG" : String).data ∧ isAlphanumOrUnderscore ' ' = false :=
  ⟨fun _ => rfl, by decide, by decide⟩

/-- C12: `getEnvVarName("my-flag.v2")` on a provider with prefix `APP` equals
`APP_MY_FLAG_V2`. -/
theorem getEnvVarName_my_flag_v2 (caseTable : Char → Char) :
    (EnvVarProvider.mk "APP").getEnvVarName caseTable "my-flag.v2" = "APP_MY_FLAG_V2" :=
  rfl

/-! ## The resolver: what each parser accepts -/

section ParserTheorems

variable {Context FlattenedContext : Type}

theorem ParseBool_of_true (s : String) (h : s ∈ trueTokens) : ParseBool s = (true, none) := by
  unfold ParseBool
  simp only [trueTokens, List.mem_cons, List.mem_singleton, List.mem_nil_iff, or_false] at h
  rcases h with h | h | h | h | h | h <;> subst h <;> rfl

theorem ParseBool_of_false (s : String) (h : s ∈ falseTokens) : ParseBool s = (false, none) := by
  unfold ParseBool
  simp only [falseTokens, List.mem_cons, List.mem_singleton, List.mem_nil_iff, or_false] at h
  rcases h with h | h | h | h | h | h <;> subst h <;> rfl

theorem ParseBool_of_other (s : String) (h1 : s ∉ trueTokens) (h2 : s ∉ falseTokens) :
    ParseBool s = (false, some (syntaxError "ParseBool" s)) := by
  unfold ParseBool
  simp only [trueTokens, falseTokens, List.mem_cons, List.mem_singleton, List.mem_nil_iff,
    or_false] at h1 h2
  rw [if_neg, if_neg]
  · intro h
    exact h2 (by tauto)
  · intro h
    exact h1 (by tauto)

theorem ne_empty_of_token (s : String) (h : s ∈ trueTokens ∨ s ∈ falseTokens) : s ≠ "" := by
  rintro rfl
  revert h
  decide

/-- The result of `BooleanEvaluation` in terms of what `os.Getenv` returns for
the name of the flag. -/
theorem BooleanEvaluation_of_lookup (caseTable : Char → Char) (env : Environ)
    (e : EnvVarProvider) (ctx : Context) (flag : String) (d : Bool)
    (evalCtx : FlattenedContext) :
    ((e.BooleanEvaluation caseTable env ctx flag d evalCtx).ProviderResolutionDetail.Variant
        = "env-var" ↔
      Getenv env (e.getEnvVarName caseTable flag) ∈ trueTokens ∨
      Getenv env (e.getEnvVarName caseTable flag) ∈ falseTokens) ∧
    (Getenv env (e.getEnvVarName caseTable flag) ∈ trueTokens →
      e.BooleanEvaluation caseTable env ctx flag d evalCtx =
        { Value := true
          ProviderResolutionDetail :=
            { Variant := "env-var", Reason := TargetingMatchReason } }) ∧
    (Getenv env (e.getEnvVarName caseTable flag) ∈ falseTokens →
      e.BooleanEvaluation caseTable env ctx flag d evalCtx =
        { Value := false
          ProviderResolutionDetail :=
            { Variant := "env-var", Reason := TargetingMatchReason } }) ∧
    (Getenv env (e.getEnvVarName caseTable flag) ∉ trueTokens →
      Getenv env (e.getEnvVarName caseTable flag) ∉ falseTokens →
      e.BooleanEvaluation caseTable env ctx flag d evalCtx =
        { Value := d
          ProviderResolutionDetail :=
            { Variant := "default-variant", Reason := DefaultReason } }) := by
  have ht : Getenv env (e.getEnvVarName caseTable flag) ∈ trueTokens →
      e.BooleanEvaluation caseTable env ctx flag d evalCtx =
        { Value := true
          ProviderResolutionDetail :=
            { Variant := "env-var", Reason := TargetingMatchReason } } := by
    intro h
    unfold EnvVarProvider.BooleanEvaluation
    simp only [ne_eq, ne_empty_of_token _ (Or.inl h), not_false_eq_true, if_true,
      ParseBool_of_true _ h]
  have hf : Getenv env (e.getEnvVarName caseTable flag) ∈ falseTokens →
      e.BooleanEvaluation caseTable env ctx flag d evalCtx =
        { Value := false
          ProviderResolutionDetail :=
            { Variant := "env-var", Reason := TargetingMatchReason } } := by
    intro h
    unfold EnvVarProvider.BooleanEvaluation
    simp only [ne_eq, ne_empty_of_token _ (Or.inr h), not_false_eq_true, if_true,
      ParseBool_of_false _ h]
  have ho : Getenv env (e.getEnvVarName caseTable flag) ∉ trueTokens →
      Getenv env (e.getEnvVarName caseTable flag) ∉ falseTokens →
      e.BooleanEvaluation caseTable env ctx flag d evalCtx =
        { Value := d
          ProviderResolutionDetail :=
            { Variant := "default-variant", Reason := DefaultReason } } := by
    intro h1 h2
    unfold EnvVarProvider.BooleanEvaluation
    simp only [ParseBool_of_other _ h1 h2, ite_self]
  refine ⟨⟨fun hv => ?_, fun h => ?_⟩, ht, hf, ho⟩
  · by_contra hn
    rw [ho (fun h => hn (Or.inl h)) (fun h => hn (Or.inr h))] at hv
    exact variant_ne hv
  · rcases h with h | h
    · rw [ht h]
    · rw [hf h]

theorem not_token_empty : ("" : String) ∉ trueTokens ∧ ("" : String) ∉ falseTokens := by
  decide

/-- C13: for a non-empty name `getEnvVarName(flag)` (as it is for every
non-empty flag key), `BooleanEvaluation` returns variant `env-var` if and only
if the entry stored at that name is one of the twelve tokens, with value `true`
for `1`, `t`, `T`, `TRUE`, `true`, `True` and `false` for `0`, `f`, `F`,
`FALSE`, `false`, `False`; and for every name, every other stored value, like
an unset entry, yields the default with variant `default-variant` and reason
`Default`. -/
theorem BooleanEvaluation_tokens (caseTable : Char → Char) (env : Environ)
    (e : EnvVarProvider) (ctx : Context) (flag : String) (d : Bool)
    (evalCtx : FlattenedContext) :
    (e.getEnvVarName caseTable flag ≠ "" →
      ((e.BooleanEvaluation caseTable env ctx flag d evalCtx).ProviderResolutionDetail.Variant
          = "env-var" ↔
        ∃ v, env (e.getEnvVarName caseTable flag) = some v ∧
          (v ∈ trueTokens ∨ v ∈ falseTokens)) ∧
      (∀ v ∈ trueTokens, env (e.getEnvVarName caseTable flag) = some v →
        e.BooleanEvaluation caseTable env ctx flag d evalCtx =
          { Value := true
            ProviderResolutionDetail :=
              { Variant := "env-var", Reason := TargetingMatchReason } }) ∧
      (∀ v ∈ falseTokens, env (e.getEnvVarName caseTable flag) = some v →
        e.BooleanEvaluation caseTable env ctx flag d evalCtx =
          { Value := false
            ProviderResolutionDetail :=
              { Variant := "env-var", Reason := TargetingMatchReason } })) ∧
    (∀ v, env (e.getEnvVarName caseTable flag) = some v → v ∉ trueTokens → v ∉ falseTokens →
      e.BooleanEvaluation caseTable env ctx flag d evalCtx =
        { Value := d
          ProviderResolutionDetail :=
            { Variant := "default-variant", Reason := DefaultReason } }) ∧
    (env (e.getEnvVarName caseTable flag) = none →
      e.BooleanEvaluation caseTable env ctx flag d evalCtx =
        { Value := d
          ProviderResolutionDetail :=
            { Variant := "default-variant", Reason := DefaultReason } }) := by
  obtain ⟨hiff, ht, hf, ho⟩ := BooleanEvaluation_of_lookup caseTable env e ctx flag d evalCtx
  refine ⟨fun hname => ⟨⟨fun hv => ?_, fun hex => ?_⟩, fun v hv h => ?_, fun v hv h => ?_⟩,
    fun v h h1 h2 => ?_, fun h => ?_⟩
  · have htok := hiff.mp hv
    cases hres : env (e.getEnvVarName caseTable flag) with
    | none =>
      rw [Getenv_of_unset_or_empty env _ (Or.inl hres)] at htok
      exact absurd htok (fun h => h.elim not_token_empty.1 not_token_empty.2)
    | some v =>
      rw [Getenv_of_some env _ v hname hres] at htok
      exact ⟨v, rfl, htok⟩
  · obtain ⟨v, h, htok⟩ := hex
    apply hiff.mpr
    rw [Getenv_of_some env _ v hname h]
    exact htok
  · apply ht
    rw [Getenv_of_some env _ v hname h]
    exact hv
  · apply hf
    rw [Getenv_of_some env _ v hname h]
    exact hv
  · by_cases hname : e.getEnvVarName caseTable flag = ""
    · apply ho
      · rw [hname, Getenv_empty_name]
        exact not_token_empty.1
      · rw [hname, Getenv_empty_name]
        exact not_token_empty.2
    · apply ho
      · rw [Getenv_of_some env _ v hname h]
        exact h1
      · rw [Getenv_of_some env _ v hname h]
        exact h2
  · apply ho
    · rw [Getenv_of_unset_or_empty env _ (Or.inl h)]
      exact not_token_empty.1
    · rw [Getenv_of_unset_or_empty env _ (Or.inl h)]
      exact not_token_empty.2

/-- C13, witness: stored at `MY_FLAG`, the token `T` gives `true` against the
default `false`, the token `0` gives `false` against the default `true`, and
`yes`, `on`, `tRuE` and ` true`, which are no tokens, give the default. -/
theorem BooleanEvaluation_tokens_witness :
    ((EnvVarProvider.mk "").getEnvVarName id "my-flag" = "MY_FLAG" ∧
      "T" ∈ trueTokens ∧ "0" ∈ falseTokens ∧
      ∀ raw ∈ ["yes", "on", "tRuE", " true"], raw ∉ trueTokens ∧ raw ∉ falseTokens) ∧
    (EnvVarProvider.mk "").BooleanEvaluation id (envOf "MY_FLAG" "T") () "my-flag" false () =
      { Value := true
        ProviderResolutionDetail := { Variant := "env-var", Reason := TargetingMatchReason } } ∧
    (EnvVarProvider.mk "").BooleanEvaluation id (envOf "MY_FLAG" "0") () "my-flag" true () =
      { Value := false
        ProviderResolutionDetail := { Variant := "env-var", Reason := TargetingMatchReason } } ∧
    ∀ raw ∈ ["yes", "on", "tRuE", " true"],
      (EnvVarProvider.mk "").BooleanEvaluation id (envOf "MY_FLAG" raw) () "my-flag" true () =
        { Value := true
          ProviderResolutionDetail :=
            { Variant := "default-variant", Reason := DefaultReason } } := by
  have hn : ∀ raw ∈ ["yes", "on", "tRuE", " true"], raw ∉ trueTokens ∧ raw ∉ falseTokens := by
    decide
  have hname : (EnvVarProvider.mk "").getEnvVarName id "my-flag" ≠ "" := by decide
  have hlook : ∀ raw : String,
      envOf "MY_FLAG" raw ((EnvVarProvider.mk "").getEnvVarName id "my-flag") = some raw :=
    fun raw => if_pos rfl
  refine ⟨⟨by decide, by decide, by decide, hn⟩, ?_, ?_, fun raw hraw => ?_⟩
  · exact ((BooleanEvaluation_tokens id (envOf "MY_FLAG" "T") ⟨""⟩ () "my-flag" false ()).1
      hname).2.1 "T" (by decide) (hlook "T")
  · exact ((BooleanEvaluation_tokens id (envOf "MY_FLAG" "0") ⟨""⟩ () "my-flag" true ()).1
      hname).2.2 "0" (by decide) (hlook "0")
  · exact (BooleanEvaluation_tokens id (envOf "MY_FLAG" raw) ⟨""⟩ () "my-flag" true ()).2.1
      raw (hlook raw) (hn raw hraw).1 (hn raw hraw).2

end ParserTheorems

/-! ## Colliding names -/

section CollisionTheorems

variable {Context FlattenedContext : Type}

theorem sanitized_my_flag (caseTable : Char → Char) :
    ReplaceAll (ReplaceAll (ToUpper caseTable "my-flag") "-" "_") "." "_" = "MY_FLAG" ∧
    ReplaceAll (ReplaceAll (ToUpper caseTable "my.flag") "-" "_") "." "_" = "MY_FLAG" ∧
    ReplaceAll (ReplaceAll (ToUpper caseTable "my_flag") "-" "_") "." "_" = "MY_FLAG" ∧
    ReplaceAll (ReplaceAll (ToUpper caseTable "MY_FLAG") "-" "_") "." "_" = "MY_FLAG" :=
  ⟨rfl, rfl, rfl, rfl⟩

/-- Two flags with one name resolve alike in every environment. -/
theorem evaluations_eq_of_name_eq {F : Type} (ParseFloat : String → Nat → F × Option NumError)
    (caseTable : Char → Char) (e₁ e₂ : EnvVarProvider) (flag₁ flag₂ : String)
    (h : e₁.getEnvVarName caseTable flag₁ = e₂.getEnvVarName caseTable flag₂)
    (env : Environ) (ctx : Context) (evalCtx : FlattenedContext)
    (db : Bool) (ds : String) (df : F) (di : Int) :
    e₁.BooleanEvaluation caseTable env ctx flag₁ db evalCtx =
      e₂.BooleanEvaluation caseTable env ctx flag₂ db evalCtx ∧
    e₁.StringEvaluation caseTable env ctx flag₁ ds evalCtx =
      e₂.StringEvaluation caseTable env ctx flag₂ ds evalCtx ∧
    e₁.FloatEvaluation ParseFloat caseTable env ctx flag₁ df evalCtx =
      e₂.FloatEvaluation ParseFloat caseTable env ctx flag₂ df evalCtx ∧
    e₁.IntEvaluation caseTable env ctx flag₁ di evalCtx =
      e₂.IntEvaluation caseTable env ctx flag₂ di evalCtx := by
  unfold EnvVarProvider.BooleanEvaluation EnvVarProvider.StringEvaluation
    EnvVarProvider.FloatEvaluation EnvVarProvider.IntEvaluation
  simp only [h, and_self]

/-- C17: `getEnvVarName` is not injective.  Under every prefix the keys
`my-flag`, `my.flag`, `my_flag` and `MY_FLAG` have one name, which is `MY_FLAG`
under the empty prefix; prefix `A` with key `b-c` and prefix `A_B` with key `c`
both give `A_B_C`; and two flags with one name get the same result from every
scalar evaluation in every environment. -/
theorem getEnvVarName_collisions {F : Type} (ParseFloat : String → Nat → F × Option NumError)
    (caseTable : Char → Char) :
    (∀ p : String, ¬ Function.Injective ((EnvVarProvider.mk p).getEnvVarName caseTable)) ∧
    (∀ p : String,
      (EnvVarProvider.mk p).getEnvVarName caseTable "my-flag" =
        (EnvVarProvider.mk p).getEnvVarName caseTable "MY_FLAG" ∧
      (EnvVarProvider.mk p).getEnvVarName caseTable "my.flag" =
        (EnvVarProvider.mk p).getEnvVarName caseTable "MY_FLAG" ∧
      (EnvVarProvider.mk p).getEnvVarName caseTable "my_flag" =
        (EnvVarProvider.mk p).getEnvVarName caseTable "MY_FLAG") ∧
    ((EnvVarProvider.mk "").getEnvVarName caseTable "my-flag" = "MY_FLAG" ∧
      (EnvVarProvider.mk "").getEnvVarName caseTable "my.flag" = "MY_FLAG" ∧
      (EnvVarProvider.mk "").getEnvVarName caseTable "my_flag" = "MY_FLAG" ∧
      (EnvVarProvider.mk "").getEnvVarName caseTable "MY_FLAG" = "MY_FLAG") ∧
    ((EnvVarProvider.mk "A").getEnvVarName caseTable "b-c" = "A_B_C" ∧
      (EnvVarProvider.mk "A_B").getEnvVarName caseTable "c" = "A_B_C") ∧
    (∀ (e₁ e₂ : EnvVarProvider) (flag₁ flag₂ : String),
      e₁.getEnvVarName caseTable flag₁ = e₂.getEnvVarName caseTable flag₂ →
      ∀ (env : Environ) (ctx : Context) (evalCtx : FlattenedContext)
        (db : Bool) (ds : String) (df : F) (di : Int),
        e₁.BooleanEvaluation caseTable env ctx flag₁ db evalCtx =
          e₂.BooleanEvaluation caseTable env ctx flag₂ db evalCtx ∧
        e₁.StringEvaluation caseTable env ctx flag₁ ds evalCtx =
          e₂.StringEvaluation caseTable env ctx flag₂ ds evalCtx ∧
        e₁.FloatEvaluation ParseFloat caseTable env ctx flag₁ df evalCtx =
          e₂.FloatEvaluation ParseFloat caseTable env ctx flag₂ df evalCtx ∧
        e₁.IntEvaluation caseTable env ctx flag₁ di evalCtx =
          e₂.IntEvaluation caseTable env ctx flag₂ di evalCtx) := by
  have hs := sanitized_my_flag caseTable
  have hp : ∀ p : String,
      (EnvVarProvider.mk p).getEnvVarName caseTable "my-flag" =
        (EnvVarProvider.mk p).getEnvVarName caseTable "MY_FLAG" ∧
      (EnvVarProvider.mk p).getEnvVarName caseTable "my.flag" =
        (EnvVarProvider.mk p).getEnvVarName caseTable "MY_FLAG" ∧
      (EnvVarProvider.mk p).getEnvVarName caseTable "my_flag" =
        (EnvVarProvider.mk p).getEnvVarName caseTable "MY_FLAG" := by
    intro p
    unfold EnvVarProvider.getEnvVarName
    simp only [hs.1, hs.2.1, hs.2.2.1, hs.2.2.2, and_self]
  refine ⟨fun p hinj => ?_, hp, ⟨rfl, rfl, rfl, rfl⟩, ⟨rfl, rfl⟩, ?_⟩
  · exact absurd (hinj (hp p).1) (by decide)
  · intro e₁ e₂ flag₁ flag₂ h env ctx evalCtx db ds df di
    exact evaluations_eq_of_name_eq ParseFloat caseTable e₁ e₂ flag₁ flag₂ h env ctx evalCtx
      db ds df di

/-- C17, witness: with `A_B_C=on` set, the flag `b-c` under prefix `A` and the
flag `c` under prefix `A_B` both resolve to `on`. -/
theorem getEnvVarName_collisions_witness :
    (EnvVarProvider.mk "A").getEnvVarName id "b-c" =
      (EnvVarProvider.mk "A_B").getEnvVarName id "c" ∧
    (EnvVarProvider.mk "A").StringEvaluation id (envOf "A_B_C" "on") () "b-c" "off" () =
      (EnvVarProvider.mk "A_B").StringEvaluation id (envOf "A_B_C" "on") () "c" "off" () ∧
    ((EnvVarProvider.mk "A").StringEvaluation id (envOf "A_B_C" "on") () "b-c" "off" ()).Value
      = "on" :=
  ⟨rfl,
    ((getEnvVarName_collisions (fun _ _ => ((0 : Nat), none)) id).2.2.2.2 ⟨"A"⟩ ⟨"A_B"⟩ "b-c" "c"
      rfl (envOf "A_B_C" "on") () () true "off" 0 0).2.1,
    by decide⟩

end CollisionTheorems

/-! ## Decimal renderings and literals -/

theorem digitChar_of_lt (m : Nat) (h : m < 10) :
    isDecDigit (Nat.digitChar m) ∧ (Nat.digitChar m).toNat - '0'.toNat = m := by
  interval_cases m <;> exact ⟨by decide, by decide⟩

/-- The digits `Nat.toDigitsCore` puts before the accumulator are a non-empty
run of decimal digits that denotes the number. -/
theorem toDigitsCore_spec (fuel : Nat) :
    ∀ (n : Nat) (acc : List Char), n < fuel →
      ∃ l, Nat.toDigitsCore 10 fuel n acc = l ++ acc ∧ l ≠ [] ∧
        (∀ c ∈ l, isDecDigit c) ∧ l.foldl decStep 0 = n := by
  induction fuel with
  | zero => intro n acc h; exact absurd h (Nat.not_lt_zero _)
  | succ fuel ih =>
    intro n acc h
    have hd := digitChar_of_lt (n % 10) (Nat.mod_lt _ (by decide))
    unfold Nat.toDigitsCore
    simp only
    by_cases h0 : n / 10 = 0
    · rw [if_pos h0]
      refine ⟨[Nat.digitChar (n % 10)], rfl, by simp, ?_, ?_⟩
      · intro c hc
        rw [List.mem_singleton.mp hc]
        exact hd.1
      · simp only [List.foldl_cons, List.foldl_nil, decStep, hd.2]
        omega
    · rw [if_neg h0]
      obtain ⟨l, hl, hne, hdig, hval⟩ :=
        ih (n / 10) (Nat.digitChar (n % 10) :: acc) (by omega)
      refine ⟨l ++ [Nat.digitChar (n % 10)], ?_, by simp, ?_, ?_⟩
      · rw [hl, List.append_assoc, List.singleton_append]
      · intro c hc
        rcases List.mem_append.mp hc with hc | hc
        · exact hdig c hc
        · rw [List.mem_singleton.mp hc]
          exact hd.1
      · rw [List.foldl_append, hval]
        simp only [List.foldl_cons, List.foldl_nil, decStep, hd.2]
        omega

theorem toDigits_spec (n : Nat) :
    Nat.toDigits 10 n ≠ [] ∧ (∀ c ∈ Nat.toDigits 10 n, isDecDigit c) ∧
      decimalValue (Nat.toDigits 10 n) = n := by
  obtain ⟨l, hl, hne, hdig, hval⟩ := toDigitsCore_spec (n + 1) n [] (Nat.lt_succ_self n)
  rw [List.append_nil] at hl
  unfold Nat.toDigits decimalValue
  rw [hl]
  exact ⟨hne, hdig, hval⟩

theorem head?_of_digits (l : List Char) (hne : l ≠ []) (hdig : ∀ c ∈ l, isDecDigit c) :
    l.head? ≠ some '+' ∧ l.head? ≠ some '-' := by
  cases l with
  | nil => exact absurd rfl hne
  | cons c t =>
    have hc := hdig c (List.mem_cons_self _ _)
    simp only [List.head?_cons, ne_eq, Option.some.injEq]
    constructor
    · rintro rfl
      exact absurd hc (by decide)
    · rintro rfl
      exact absurd hc (by decide)

/-- The rendering of a 64-bit signed integer is the literal of that integer. -/
theorem int64Literal_decimalRendering (n : Int) (hlo : -2 ^ 63 ≤ n) (hhi : n < 2 ^ 63) :
    int64Literal (decimalRendering n) = some n := by
  obtain ⟨hne, hdig, hval⟩ := toDigits_spec n.natAbs
  obtain ⟨hplus, hminus⟩ := head?_of_digits _ hne hdig
  unfold int64Literal decimalRendering
  by_cases hneg : n < 0
  · simp only [hneg, if_true, List.head?_cons, or_true, List.tail_cons, hval]
    rw [if_pos ⟨hne, hdig, by omega, by omega⟩]
    congr 1
    omega
  · simp only [hneg, if_false, hplus, hminus, or_self, hval]
    rw [if_pos ⟨hne, hdig, by omega, by omega⟩]
    congr 1
    omega

theorem int64Literal_ne_empty (s : String) (v : Int) (h : int64Literal s = some v) : s ≠ "" := by
  rintro rfl
  have h0 : int64Literal "" = none := by decide
  rw [h0] at h
  cases h

/-- A well-formed decimal literal is a 64-bit literal exactly when its value
is in the signed 64-bit range. -/
theorem int64Literal_of_decimalLiteral (s : String) (z : Int) (h : decimalLiteral s = some z) :
    s ≠ "" ∧ int64Literal s = if -2 ^ 63 ≤ z ∧ z < 2 ^ 63 then some z else none := by
  constructor
  · rintro rfl
    have h0 : decimalLiteral "" = none := by decide
    rw [h0] at h
    cases h
  · unfold decimalLiteral at h
    unfold int64Literal
    simp only at h ⊢
    generalize (if s.data.head? = some '+' ∨ s.data.head? = some '-' then s.data.tail
      else s.data) = ds at h ⊢
    generalize (if s.data.head? = some '-' then -(decimalValue ds : Int)
      else (decimalValue ds : Int)) = v at h ⊢
    by_cases hwf : ds ≠ [] ∧ ∀ c ∈ ds, isDecDigit c
    · rw [if_pos hwf] at h
      have hz := Option.some.inj h
      subst hz
      by_cases hr : -2 ^ 63 ≤ v ∧ v < 2 ^ 63
      · rw [if_pos ⟨hwf.1, hwf.2, hr.1, hr.2⟩, if_pos hr]
      · rw [if_neg (fun hh => hr ⟨hh.2.2.1, hh.2.2.2⟩), if_neg hr]
    · rw [if_neg hwf] at h
      cases h

section IntTheorems

variable {Context FlattenedContext : Type}

theorem IntEvaluation_of_literal (caseTable : Char → Char) (env : Environ)
    (e : EnvVarProvider) (ctx : Context) (flag : String) (d : Int)
    (evalCtx : FlattenedContext) (v : String) (n : Int)
    (hname : e.getEnvVarName caseTable flag ≠ "")
    (h : env (e.getEnvVarName caseTable flag) = some v) (hl : int64Literal v = some n) :
    e.IntEvaluation caseTable env ctx flag d evalCtx =
      { Value := n
        ProviderResolutionDetail := { Variant := "env-var", Reason := TargetingMatchReason } } := by
  unfold EnvVarProvider.IntEvaluation
  simp only [Getenv_of_some env _ _ hname h, ne_eq, int64Literal_ne_empty v n hl,
    not_false_eq_true, if_true]
  rcases ParseInt10_cases v with ⟨w, hw, hp⟩ | ⟨hnone, _⟩
  · rw [hl] at hw
    rw [hp, ← Option.some.inj hw]
  · rw [hl] at hnone
    exact absurd hnone (by simp)

theorem IntEvaluation_of_not_literal (caseTable : Char → Char) (env : Environ)
    (e : EnvVarProvider) (ctx : Context) (flag : String) (d : Int)
    (evalCtx : FlattenedContext) (hl : int64Literal (Getenv env (e.getEnvVarName caseTable flag))
      = none) :
    e.IntEvaluation caseTable env ctx flag d evalCtx =
      { Value := d
        ProviderResolutionDetail := { Variant := "default-variant", Reason := DefaultReason } } := by
  unfold EnvVarProvider.IntEvaluation
  simp only
  split_ifs with hne
  · rcases ParseInt10_cases (Getenv env (e.getEnvVarName caseTable flag)) with
      ⟨w, hw, _⟩ | ⟨_, n, err, hp⟩
    · rw [hl] at hw
      exact absurd hw (by simp)
    · rw [hp]
  · rfl

/-- C14: for every 64-bit signed integer `n`, if the entry at
`getEnvVarName(flag)`, a non-empty name (as it is for every non-empty flag
key), is the canonical base-10 rendering of `n`, `IntEvaluation` returns
exactly `n` with variant `env-var` and reason `TargetingMatch`. -/
theorem IntEvaluation_decimalRendering (caseTable : Char → Char) (env : Environ)
    (e : EnvVarProvider) (ctx : Context) (flag : String) (d : Int)
    (evalCtx : FlattenedContext) (n : Int) (hlo : -2 ^ 63 ≤ n) (hhi : n < 2 ^ 63)
    (hname : e.getEnvVarName caseTable flag ≠ "")
    (h : env (e.getEnvVarName caseTable flag) = some (decimalRendering n)) :
    e.IntEvaluation caseTable env ctx flag d evalCtx =
      { Value := n
        ProviderResolutionDetail := { Variant := "env-var", Reason := TargetingMatchReason } } :=
  IntEvaluation_of_literal caseTable env e ctx flag d evalCtx (decimalRendering n) n hname h
    (int64Literal_decimalRendering n hlo hhi)

/-- C14, witness: the minimum and the maximum 64-bit values, rendered as
`-9223372036854775808` and `9223372036854775807`, are read back. -/
theorem IntEvaluation_decimalRendering_witness :
    (decimalRendering (-9223372036854775808) = "-9223372036854775808" ∧
      decimalRendering 9223372036854775807 = "9223372036854775807" ∧
      (EnvVarProvider.mk "").getEnvVarName id "my-flag" = "MY_FLAG") ∧
    (EnvVarProvider.mk "").IntEvaluation id (envOf "MY_FLAG" "-9223372036854775808") ()
        "my-flag" 0 () =
      { Value := -9223372036854775808
        ProviderResolutionDetail := { Variant := "env-var", Reason := TargetingMatchReason } } ∧
    (EnvVarProvider.mk "").IntEvaluation id (envOf "MY_FLAG" "9223372036854775807") ()
        "my-flag" 0 () =
      { Value := 9223372036854775807
        ProviderResolutionDetail := { Variant := "env-var", Reason := TargetingMatchReason } } := by
  have hmin : decimalRendering (-9223372036854775808) = "-9223372036854775808" := by decide
  have hmax : decimalRendering 9223372036854775807 = "9223372036854775807" := by decide
  have h1 := IntEvaluation_decimalRendering id (envOf "MY_FLAG" "-9223372036854775808") ⟨""⟩ ()
    "my-flag" 0 () (-9223372036854775808) (by norm_num) (by norm_num) (by decide)
    (by rw [hmin]; decide)
  have h2 := IntEvaluation_decimalRendering id (envOf "MY_FLAG" "9223372036854775807") ⟨""⟩ ()
    "my-flag" 0 () 9223372036854775807 (by norm_num) (by norm_num) (by decide)
    (by rw [hmax]; decide)
  exact ⟨⟨hmin, hmax, by decide⟩, h1, h2⟩

/-- C15: if the entry at `getEnvVarName(flag)` is a well-formed decimal integer
literal whose value lies outside the signed 64-bit range, `IntEvaluation`
returns the default with variant `default-variant` and reason `Default`, not
a clamped or wrapped value. -/
theorem IntEvaluation_out_of_range (caseTable : Char → Char) (env : Environ)
    (e : EnvVarProvider) (ctx : Context) (flag : String) (d : Int)
    (evalCtx : FlattenedContext) (v : String) (z : Int)
    (h : env (e.getEnvVarName caseTable flag) = some v)
    (hw : decimalLiteral v = some z) (hout : z < -2 ^ 63 ∨ 2 ^ 63 ≤ z) :
    e.IntEvaluation caseTable env ctx flag d evalCtx =
      { Value := d
        ProviderResolutionDetail := { Variant := "default-variant", Reason := DefaultReason } } := by
  apply IntEvaluation_of_not_literal
  by_cases hname : e.getEnvVarName caseTable flag = ""
  · rw [hname, Getenv_empty_name]
    decide
  · rw [Getenv_of_some env _ _ hname h, (int64Literal_of_decimalLiteral v z hw).2, if_neg]
    rintro ⟨h1, h2⟩
    omega

/-- C15, witness: `9223372036854775808` and `-9223372036854775809`, one past
either bound, yield the default 7 (not a bound, and not a wrapped value). -/
theorem IntEvaluation_out_of_range_witness :
    (decimalLiteral "9223372036854775808" = some 9223372036854775808 ∧
      decimalLiteral "-9223372036854775809" = some (-9223372036854775809)) ∧
    (EnvVarProvider.mk "").IntEvaluation id (envOf "MY_FLAG" "9223372036854775808") ()
        "my-flag" 7 () =
      { Value := 7
        ProviderResolutionDetail := { Variant := "default-variant", Reason := DefaultReason } } ∧
    (EnvVarProvider.mk "").IntEvaluation id (envOf "MY_FLAG" "-9223372036854775809") ()
        "my-flag" 7 () =
      { Value := 7
        ProviderResolutionDetail := { Variant := "default-variant", Reason := DefaultReason } } :=
  ⟨⟨by decide, by decide⟩,
    IntEvaluation_out_of_range id (envOf "MY_FLAG" "9223372036854775808") ⟨""⟩ () "my-flag" 7 ()
      "9223372036854775808" 9223372036854775808 (by decide) (by decide)
      (Or.inr (by norm_num)),
    IntEvaluation_out_of_range id (envOf "MY_FLAG" "-9223372036854775809") ⟨""⟩ () "my-flag" 7 ()
      "-9223372036854775809" (-9223372036854775809) (by decide) (by decide)
      (Or.inl (by norm_num))⟩

end IntTheorems

/-! ## One resolution function -/

section GenericTheorems

variable {Context FlattenedContext : Type}

/-- C16: each of `BooleanEvaluation`, `StringEvaluation`, `FloatEvaluation` and
`IntEvaluation` is the one generic resolution function at its own parser
(`ParseBool`, the identity, `ParseFloat` at 64 bits, `ParseInt` in base 10 at
64 bits); they differ in the parse step only. -/
theorem evaluations_eq_generic {F : Type} (ParseFloat : String → Nat → F × Option NumError)
    (caseTable : Char → Char) (env : Environ) (e : EnvVarProvider) (ctx : Context)
    (flag : String) (evalCtx : FlattenedContext)
    (db : Bool) (ds : String) (df : F) (di : Int) :
    e.BooleanEvaluation caseTable env ctx flag db evalCtx =
      genericEvaluation (fun raw => parseOutcome (ParseBool raw)) caseTable env e flag db ∧
    e.StringEvaluation caseTable env ctx flag ds evalCtx =
      genericEvaluation (fun raw => some raw) caseTable env e flag ds ∧
    e.FloatEvaluation ParseFloat caseTable env ctx flag df evalCtx =
      genericEvaluation (fun raw => parseOutcome (ParseFloat raw 64)) caseTable env e flag df ∧
    e.IntEvaluation caseTable env ctx flag di evalCtx =
      genericEvaluation (fun raw => parseOutcome (ParseInt raw 10 64)) caseTable env e flag di := by
  refine ⟨?_, ?_, ?_, ?_⟩
  · unfold EnvVarProvider.BooleanEvaluation genericEvaluation
    simp only
    split_ifs with h
    · rcases hp : ParseBool (Getenv env (e.getEnvVarName caseTable flag)) with ⟨v, _ | err⟩
      · rfl
      · rfl
    · rfl
  · unfold EnvVarProvider.StringEvaluation genericEvaluation
    simp only
    split_ifs with h
    · rfl
    · rfl
  · unfold EnvVarProvider.FloatEvaluation genericEvaluation
    simp only
    split_ifs with h
    · rcases hp : ParseFloat (Getenv env (e.getEnvVarName caseTable flag)) 64 with ⟨v, _ | err⟩
      · rfl
      · rfl
    · rfl
  · unfold EnvVarProvider.IntEvaluation genericEvaluation
    simp only
    split_ifs with h
    · rcases hp : ParseInt (Getenv env (e.getEnvVarName caseTable flag)) 10 64 with ⟨v, _ | err⟩
      · rfl
      · rfl
    · rfl

end GenericTheorems

/-! ## Applying the name mapper twice -/

theorem toUpperASCII_idem (c : Char) : toUpperASCII (toUpperASCII c) = toUpperASCII c := by
  have h := toUpperASCII_not_lower c
  generalize toUpperASCII c = u at h
  unfold toUpperASCII
  exact if_neg h

/-- With a case table whose upper-case forms are fixed by `unicode.ToUpper`,
and which fixes the upper-case forms U+039C and U+0178 that Latin-1 maps to,
`unicode.ToUpper` is idempotent. -/
theorem unicodeToUpper_idem (caseTable : Char → Char)
    (h1 : ∀ r : Char, MaxLatin1 < r.toNat →
      unicodeToUpper caseTable (caseTable r) = caseTable r)
    (h2 : caseTable (Char.ofNat 0x39C) = Char.ofNat 0x39C)
    (h3 : caseTable (Char.ofNat 0x178) = Char.ofNat 0x178) (c : Char) :
    unicodeToUpper caseTable (unicodeToUpper caseTable c) = unicodeToUpper caseTable c := by
  by_cases hA : c.toNat ≤ MaxASCII
  · have e : unicodeToUpper caseTable c = toUpperASCII c := by
      unfold unicodeToUpper
      rw [if_pos hA]
    rw [e]
    unfold unicodeToUpper
    rw [if_pos (toUpperASCII_le c hA)]
    exact toUpperASCII_idem c
  · by_cases hL : c.toNat ≤ MaxLatin1
    · have e : unicodeToUpper caseTable c = toUpperLatin1 c := by
        unfold unicodeToUpper
        rw [if_neg hA, if_pos hL]
      rw [e]
      unfold MaxASCII at hA
      unfold MaxLatin1 at hL
      unfold toUpperLatin1
      split_ifs with c1 c2 c3 c4
      · rw [c1]
        show unicodeToUpper caseTable (Char.ofNat 0x39C) = Char.ofNat 0x39C
        unfold unicodeToUpper
        rw [if_neg (by decide), if_neg (by decide)]
        exact h2
      · have hn := toNat_ofNat_of_lt (c.toNat - 32) (by omega)
        unfold unicodeToUpper toUpperLatin1 MaxASCII MaxLatin1
        rw [hn, if_neg (by omega), if_pos (by omega), if_neg (by omega), if_neg (by omega),
          if_neg (by omega), if_neg (by omega)]
      · have hn := toNat_ofNat_of_lt (c.toNat - 32) (by omega)
        unfold unicodeToUpper toUpperLatin1 MaxASCII MaxLatin1
        rw [hn, if_neg (by omega), if_pos (by omega), if_neg (by omega), if_neg (by omega),
          if_neg (by omega), if_neg (by omega)]
      · rw [c4]
        show unicodeToUpper caseTable (Char.ofNat 0x178) = Char.ofNat 0x178
        unfold unicodeToUpper
        rw [if_neg (by decide), if_neg (by decide)]
        exact h3
      · unfold unicodeToUpper toUpperLatin1 MaxASCII MaxLatin1
        rw [if_neg (by omega), if_pos (by omega), if_neg c1, if_neg c2, if_neg c3, if_neg c4]
    · have e : unicodeToUpper caseTable c = caseTable c := by
        unfold unicodeToUpper
        rw [if_neg hA, if_neg hL]
      rw [e]
      exact h1 c (by omega)

theorem specUpperKey_length (caseTable : Char → Char) (k : String) :
    (specUpperKey caseTable k).data.length = k.data.length := by
  simp only [specUpperKey, List.length_map]

/-- The name of a key is its own name when `unicode.ToUpper` is idempotent on
the characters of the key. -/
theorem getEnvVarName_idem_of (caseTable : Char → Char) (k : String)
    (h : ∀ c ∈ k.data,
      unicodeToUpper caseTable (unicodeToUpper caseTable c) = unicodeToUpper caseTable c) :
    (EnvVarProvider.mk "").getEnvVarName caseTable
        ((EnvVarProvider.mk "").getEnvVarName caseTable k) =
      (EnvVarProvider.mk "").getEnvVarName caseTable k := by
  unfold EnvVarProvider.getEnvVarName
  simp only [sanitized_eq, ne_eq, not_true_eq_false, if_false]
  apply String.ext
  simp only [specUpperKey, List.map_map]
  apply List.map_congr_left
  intro c hc
  simp only [Function.comp]
  by_cases hd : unicodeToUpper caseTable c = '-' ∨ unicodeToUpper caseTable c = '.'
  · rw [if_pos hd]
    have hu : unicodeToUpper caseTable '_' = '_' := rfl
    rw [hu]
    decide
  · rw [if_neg hd, h c hc, if_neg hd]

theorem unicodeToUpper_idem_ascii (caseTable : Char → Char) (c : Char)
    (hA : c.toNat ≤ MaxASCII) :
    unicodeToUpper caseTable (unicodeToUpper caseTable c) = unicodeToUpper caseTable c := by
  have e : unicodeToUpper caseTable c = toUpperASCII c := by
    unfold unicodeToUpper
    rw [if_pos hA]
  rw [e]
  unfold unicodeToUpper
  rw [if_pos (toUpperASCII_le c hA)]
  exact toUpperASCII_idem c

/-- C18: on a provider with empty prefix `getEnvVarName` is idempotent: on
every ASCII key, and on every key when the upper-case forms of the Unicode
case table are themselves fixed by `unicode.ToUpper`; with a non-empty prefix
it is not, for any key, since the second application prepends the prefix and
`_` again. -/
theorem getEnvVarName_idempotent (caseTable : Char → Char) :
    (∀ k : String, (∀ c ∈ k.data, c.toNat ≤ MaxASCII) →
        (EnvVarProvider.mk "").getEnvVarName caseTable
            ((EnvVarProvider.mk "").getEnvVarName caseTable k) =
          (EnvVarProvider.mk "").getEnvVarName caseTable k) ∧
    ((∀ r : Char, MaxLatin1 < r.toNat →
        unicodeToUpper caseTable (caseTable r) = caseTable r) →
      caseTable (Char.ofNat 0x39C) = Char.ofNat 0x39C →
      caseTable (Char.ofNat 0x178) = Char.ofNat 0x178 →
      ∀ k : String,
        (EnvVarProvider.mk "").getEnvVarName caseTable
            ((EnvVarProvider.mk "").getEnvVarName caseTable k) =
          (EnvVarProvider.mk "").getEnvVarName caseTable k) ∧
    (∀ p k : String, p ≠ "" →
      (EnvVarProvider.mk p).getEnvVarName caseTable
          ((EnvVarProvider.mk p).getEnvVarName caseTable k) ≠
        (EnvVarProvider.mk p).getEnvVarName caseTable k) := by
  refine ⟨fun k hk => ?_, fun h1 h2 h3 k => ?_, ?_⟩
  · exact getEnvVarName_idem_of caseTable k
      (fun c hc => unicodeToUpper_idem_ascii caseTable c (hk c hc))
  · exact getEnvVarName_idem_of caseTable k
      (fun c _ => unicodeToUpper_idem caseTable h1 h2 h3 c)
  · intro p k hp h
    unfold EnvVarProvider.getEnvVarName at h
    simp only [sanitized_eq, ne_eq, hp, not_false_eq_true, if_true] at h
    have hl := congrArg (fun s : String => s.data.length) h
    simp only [String.data_append, List.length_append, specUpperKey_length,
      List.length_singleton] at hl
    omega

/-- C18, witness: under the identity table the name `MY_FLAG_V2É` of the key
`my-flag.v2é` is its own name, while under the prefix `APP` the name
`APP_MY_FLAG` of `my-flag` maps to `APP_APP_MY_FLAG`. -/
theorem getEnvVarName_idempotent_witness :
    ((∀ r : Char, MaxLatin1 < r.toNat → unicodeToUpper id (id r) = id r) ∧
      id (Char.ofNat 0x39C) = Char.ofNat 0x39C ∧ id (Char.ofNat 0x178) = Char.ofNat 0x178) ∧
    (EnvVarProvider.mk "").getEnvVarName id "my-flag.v2é" = "MY_FLAG_V2É" ∧
    (EnvVarProvider.mk "").getEnvVarName id
        ((EnvVarProvider.mk "").getEnvVarName id "my-flag.v2é") =
      (EnvVarProvider.mk "").getEnvVarName id "my-flag.v2é" ∧
    (EnvVarProvider.mk "APP").getEnvVarName id
        ((EnvVarProvider.mk "APP").getEnvVarName id "my-flag") = "APP_APP_MY_FLAG" ∧
    (EnvVarProvider.mk "APP").getEnvVarName id
        ((EnvVarProvider.mk "APP").getEnvVarName id "my-flag") ≠
      (EnvVarProvider.mk "APP").getEnvVarName id "my-flag" := by
  have hT : ∀ r : Char, MaxLatin1 < r.toNat → unicodeToUpper id (id r) = id r := by
    intro r hr
    unfold MaxLatin1 at hr
    show unicodeToUpper id r = r
    unfold unicodeToUpper MaxASCII MaxLatin1
    rw [if_neg (by omega), if_neg (by omega)]
    rfl
  exact ⟨⟨hT, rfl, rfl⟩, by decide,
    (getEnvVarName_idempotent id).2.1 hT rfl rfl "my-flag.v2é", by decide,
    (getEnvVarName_idempotent id).2.2 "APP" "my-flag" (by decide)⟩

end FeatureFlags
